import Mathlib

/-!
Verification development for the Inference Guardian subsystem of the
luca-express-talks repository.

The definitions below are a shallow embedding of the TypeScript sources:

* the Zombie Reaper (`zombieReaper.ts`): `computeCandidates`, `executeKill`,
  `confirmStep`, `runConfirm`, `evaluate`, `getKillsInWindow`;
* the Process Tracker (`processTracker.ts`): `classifyRole`,
  `computeCpuPercent`, `determineHealth`, `scanProcesses`;
* the CUDA Monitor (`cudaMonitor.ts`): `generateAlerts`;
* the Inference Fence (`inferenceFence.ts`): `canLaunchModel`.

Module-global mutable state (registries, candidate map, action log, counters)
is modelled by explicit state records threaded through the functions.
External capabilities (`Date.now`, `getPortOwner`, `isPidAlive`,
`safeKillPid`, the managed-PID registry) are modelled by an environment
record.  JavaScript `Map` objects are modelled by insertion-ordered
association lists with `Map`-compatible `get`/`set`/`delete` semantics.
-/

namespace Guardian

/-- The kill-policy rule names of the Reaper (`ReaperRuleName` in types.ts). -/
inductive ReaperRuleName where
  | orphanKill
  | duplicateModel
  | portSquatter
  | staleWorker
  | vramHog
  deriving DecidableEq

/-- Outcome of a Reaper kill-execution (`ReaperAction.outcome` in types.ts). -/
inductive Outcome where
  | killed
  | failed
  | skippedSafety
  | dryRun
  deriving DecidableEq

/-- Process role assigned by the Process Tracker (`ProcessRole` in types.ts). -/
inductive ProcessRole where
  | backendServer
  | modelWorker
  | unknown
  deriving DecidableEq

/-- Process health status assigned by the Process Tracker (`ProcessHealth`). -/
inductive ProcessHealth where
  | healthy
  | stale
  | zombie
  | killed
  deriving DecidableEq

/-- Alert categories of the CUDA Monitor (`CudaAlert.type` in types.ts). -/
inductive AlertType where
  | vramLeak
  | unmanagedProcess
  | overBudget
  | thermal
  deriving DecidableEq

/-- Alert severities of the CUDA Monitor (`CudaAlert.severity` in types.ts). -/
inductive Severity where
  | info
  | warning
  | critical
  deriving DecidableEq

/-- One record of the process-tracker scan output (`TrackedProcess`). -/
structure TrackedProcess where
  pid : Nat
  parentPid : Nat
  role : ProcessRole
  startedAt : Nat
  lastHeartbeat : Nat
  commandLine : String
  cpuPercent : Int
  memoryMb : Rat
  gpuMemoryMb : Option Nat
  status : ProcessHealth
  deriving DecidableEq

/-- One GPU-resident process as reported by nvidia-smi (`GpuProcess`). -/
structure GpuProcess where
  pid : Nat
  processName : String
  usedMemoryMb : Nat
  isManaged : Bool
  deriving DecidableEq

/-- Device-level GPU statistics (`GpuInfo` in types.ts). -/
structure GpuInfo where
  name : String
  memoryUsedMb : Nat
  memoryTotalMb : Nat
  memoryFreeMb : Nat
  utilizationPercent : Nat
  temperature : Nat
  deriving DecidableEq

/-- An alert derived by the CUDA Monitor (`CudaAlert` in types.ts). -/
structure CudaAlert where
  type : AlertType
  severity : Severity
  message : String
  pid : Option Nat
  timestamp : Nat
  deriving DecidableEq

/-- A full CUDA Monitor snapshot (`CudaSnapshot` in types.ts). -/
structure CudaSnapshot where
  timestamp : Nat
  gpu : Option GpuInfo
  processes : List GpuProcess
  alerts : List CudaAlert
  deriving DecidableEq

/-- An immutable Reaper audit record (`ReaperAction` in types.ts). -/
structure ReaperAction where
  timestamp : Nat
  targetPid : Nat
  rule : ReaperRuleName
  reason : String
  outcome : Outcome
  freedMemoryMb : Option Nat
  deriving DecidableEq

/-- The per-rule enable toggles of `ReaperConfig.rules`. -/
structure RuleToggles where
  orphanKill : Bool
  duplicateModel : Bool
  portSquatter : Bool
  staleWorker : Bool
  vramHog : Bool
  deriving DecidableEq

/-- Reaper configuration (`ReaperConfig` in types.ts). -/
structure ReaperConfig where
  enabled : Bool
  dryRun : Bool
  maxKillsPerWindow : Nat
  windowMs : Nat
  rules : RuleToggles
  deriving DecidableEq

/-- The defaults from `DEFAULT_REAPER_CONFIG` in types.ts. -/
def DEFAULT_REAPER_CONFIG : ReaperConfig :=
  { enabled := true
    dryRun := false
    maxKillsPerWindow := 3
    windowMs := 300000
    rules :=
      { orphanKill := true
        duplicateModel := true
        portSquatter := true
        staleWorker := true
        vramHog := true } }

/-- Fence configuration (`FenceConfig` in types.ts). -/
structure FenceConfig where
  maxConcurrentModels : Nat
  vramBudgetMb : Nat
  promptTimeoutMs : Nat
  inferenceStepTimeoutMs : Nat
  maxConnectionsPerModel : Nat
  deriving DecidableEq

/-- The defaults from `DEFAULT_FENCE_CONFIG` in types.ts. -/
def DEFAULT_FENCE_CONFIG : FenceConfig :=
  { maxConcurrentModels := 1
    vramBudgetMb := 12288
    promptTimeoutMs := 300000
    inferenceStepTimeoutMs := 10000
    maxConnectionsPerModel := 1 }

/-! ### JavaScript `Map` modelled as an insertion-ordered association list -/

/-- Association list standing in for a JavaScript `Map` keyed by PID. -/
abbrev PidMap (α : Type) := List (Nat × α)

/-- `Map.prototype.get`: first entry with the given key, if any. -/
def mapGet {α : Type} (m : PidMap α) (k : Nat) : Option α :=
  match m with
  | [] => none
  | e :: rest => if e.1 = k then some e.2 else mapGet rest k

/-- `Map.prototype.set`: replace in place if the key is present (keeping its
insertion position), otherwise append at the end. -/
def mapSet {α : Type} (m : PidMap α) (k : Nat) (v : α) : PidMap α :=
  match m with
  | [] => [(k, v)]
  | e :: rest => if e.1 = k then (k, v) :: rest else e :: mapSet rest k v

/-- `Map.prototype.delete`: remove every entry with the given key. -/
def mapDelete {α : Type} (m : PidMap α) (k : Nat) : PidMap α :=
  match m with
  | [] => []
  | e :: rest => if e.1 = k then mapDelete rest k else e :: mapDelete rest k

/-- The keys of a `PidMap`, in insertion order. -/
def mapKeys {α : Type} (m : PidMap α) : List Nat := m.map Prod.fst

/-! ### Reaper embedding (zombieReaper.ts) -/

/-- A candidate recorded for two-cycle confirmation (the value type of the
module-level `candidates` map in zombieReaper.ts). -/
structure CandInfo where
  rule : ReaperRuleName
  reason : String
  firstSeenAt : Nat
  deriving DecidableEq

/-- A candidate flagged in the current cycle (the value type of the local
`currentCandidates` map in `evaluate`). -/
structure CandEntry where
  rule : ReaperRuleName
  reason : String
  deriving DecidableEq

/-- The module-level mutable state of zombieReaper.ts: `config`, `actionLog`
and the `candidates` confirmation map. -/
structure ReaperState where
  config : ReaperConfig
  actionLog : List ReaperAction
  candidates : PidMap CandInfo
  deriving DecidableEq

/-- The external world visible to one `evaluate` cycle: the current clock,
the managed-PID registry of processTracker.ts, the result of
`getPortOwner(8998)`, and the `isPidAlive` / `safeKillPid` capabilities. -/
structure ReaperEnv where
  now : Nat
  managedPids : List Nat
  portOwner : Option Nat
  alive : Nat → Bool
  killOk : Nat → Bool

/-- `isManagedPid` from processTracker.ts: membership in the registry. -/
def isManagedPid (env : ReaperEnv) (pid : Nat) : Bool :=
  env.managedPids.contains pid

/-- `getKillsInWindow` from zombieReaper.ts: killed actions in the action log
whose timestamp is strictly newer than `now - windowMs`. -/
def getKillsInWindow (log : List ReaperAction) (cfg : ReaperConfig) (now : Nat) : Nat :=
  (log.filter (fun a =>
    decide ((a.timestamp : Int) > (now : Int) - (cfg.windowMs : Int) ∧
      a.outcome = Outcome.killed))).length

/-- Reason string built by the orphan-kill rule in `evaluate`. -/
def orphanReason (proc : TrackedProcess) : String :=
  "PID " ++ toString proc.pid ++ " is orphaned (parent " ++ toString proc.parentPid ++
    " dead), using " ++ toString (proc.gpuMemoryMb.getD 0) ++ " MB VRAM."

/-- Reason string built by the duplicate-model rule in `evaluate`. -/
def duplicateReason (hog : GpuProcess) (hogCount : Nat) : String :=
  "PID " ++ toString hog.pid ++ " using " ++ toString hog.usedMemoryMb ++
    " MB VRAM — duplicate model detected (" ++ toString hogCount ++ " processes >4GB)."

/-- Reason string built by the port-squatter rule in `evaluate`. -/
def portReason (portOwner : Nat) : String :=
  "PID " ++ toString portOwner ++ " holding port 8998 but is not the managed backend."

/-- Reason string built by the stale-worker rule in `evaluate`. -/
def staleReason (proc : TrackedProcess) : String :=
  "PID " ++ toString proc.pid ++ " has no CPU activity for multiple cycles and owns " ++
    toString (proc.gpuMemoryMb.getD 0) ++ " MB VRAM."

/-- Reason string built by the vram-hog rule in `evaluate`. -/
def vramHogReason (gpuProc : GpuProcess) : String :=
  "Unmanaged PID " ++ toString gpuProc.pid ++ " using " ++ toString gpuProc.usedMemoryMb ++
    " MB VRAM for unknown purpose."

/-- Rule 1 of `evaluate` (orphan kill): flag zombie, unmanaged processes. -/
def rule1 (cfg : ReaperConfig) (env : ReaperEnv) (processes : List TrackedProcess)
    (m : PidMap CandEntry) : PidMap CandEntry :=
  if cfg.rules.orphanKill then
    processes.foldl (fun m proc =>
      if proc.status = ProcessHealth.zombie ∧ isManagedPid env proc.pid = false then
        mapSet m proc.pid ⟨ReaperRuleName.orphanKill, orphanReason proc⟩
      else m) m
  else m

/-- The local `gpuHogs` binding of the duplicate-model rule: GPU processes
using more than 4000 MB. -/
def gpuHogs (cudaSnapshot : CudaSnapshot) : List GpuProcess :=
  cudaSnapshot.processes.filter (fun p => decide (p.usedMemoryMb > 4000))

/-- Rule 2 of `evaluate` (duplicate model): when more than one GPU process
exceeds 4000 MB, flag the unmanaged ones. -/
def rule2 (cfg : ReaperConfig) (cudaSnapshot : CudaSnapshot)
    (m : PidMap CandEntry) : PidMap CandEntry :=
  if cfg.rules.duplicateModel then
    if (gpuHogs cudaSnapshot).length > 1 then
      (gpuHogs cudaSnapshot).foldl (fun m hog =>
        if hog.isManaged = false then
          mapSet m hog.pid
            ⟨ReaperRuleName.duplicateModel, duplicateReason hog (gpuHogs cudaSnapshot).length⟩
        else m) m
    else m
  else m

/-- Rule 3 of `evaluate` (port squatter): flag the owner of port 8998 when it
is neither the managed backend PID nor otherwise managed. -/
def rule3 (cfg : ReaperConfig) (env : ReaperEnv) (managedBackendPid : Option Nat)
    (m : PidMap CandEntry) : PidMap CandEntry :=
  if cfg.rules.portSquatter then
    match env.portOwner with
    | some po =>
      if managedBackendPid ≠ some po ∧ isManagedPid env po = false then
        mapSet m po ⟨ReaperRuleName.portSquatter, portReason po⟩
      else m
    | none => m
  else m

/-- Rule 4 of `evaluate` (stale worker): flag stale, unmanaged processes. -/
def rule4 (cfg : ReaperConfig) (env : ReaperEnv) (processes : List TrackedProcess)
    (m : PidMap CandEntry) : PidMap CandEntry :=
  if cfg.rules.staleWorker then
    processes.foldl (fun m proc =>
      if proc.status = ProcessHealth.stale ∧ isManagedPid env proc.pid = false then
        mapSet m proc.pid ⟨ReaperRuleName.staleWorker, staleReason proc⟩
      else m) m
  else m

/-- Rule 5 of `evaluate` (VRAM hog): flag unmanaged GPU processes over
2000 MB whose tracked role is unknown. -/
def rule5 (cfg : ReaperConfig) (processes : List TrackedProcess)
    (cudaSnapshot : CudaSnapshot) (m : PidMap CandEntry) : PidMap CandEntry :=
  if cfg.rules.vramHog then
    cudaSnapshot.processes.foldl (fun m gpuProc =>
      if gpuProc.isManaged = false ∧ gpuProc.usedMemoryMb > 2000 then
        match processes.find? (fun p => p.pid == gpuProc.pid) with
        | some tracked =>
          if tracked.role = ProcessRole.unknown then
            mapSet m gpuProc.pid ⟨ReaperRuleName.vramHog, vramHogReason gpuProc⟩
          else m
        | none => m
      else m) m
  else m

/-- The `currentCandidates` map built by the five rule blocks at the start of
`evaluate` in zombieReaper.ts, in source order. -/
def computeCandidates (cfg : ReaperConfig) (env : ReaperEnv)
    (processes : List TrackedProcess) (cudaSnapshot : CudaSnapshot)
    (managedBackendPid : Option Nat) : PidMap CandEntry :=
  rule5 cfg processes cudaSnapshot
    (rule4 cfg env processes
      (rule3 cfg env managedBackendPid
        (rule2 cfg cudaSnapshot
          (rule1 cfg env processes []))))

/-- Result of one `executeKill` call: the audit action, the updated
`candidates` map, and the list of PIDs the termination capability
(`safeKillPid`) was invoked on. -/
structure KillResult where
  action : ReaperAction
  candidates : PidMap CandInfo
  kills : List Nat

/-- `executeKill` from zombieReaper.ts: circuit breaker, managed-registry
guard, dry-run, liveness re-check, then the actual kill. -/
def executeKill (cfg : ReaperConfig) (env : ReaperEnv) (cands : PidMap CandInfo)
    (pid : Nat) (rule : ReaperRuleName) (reason : String)
    (currentKillCount : Nat) : KillResult :=
  let now := env.now
  -- Safety: circuit breaker
  if currentKillCount ≥ cfg.maxKillsPerWindow then
    { action := ⟨now, pid, rule, reason, Outcome.skippedSafety, none⟩
      candidates := cands, kills := [] }
  -- Safety: never kill managed processes
  else if isManagedPid env pid then
    { action := ⟨now, pid, rule, reason ++ " (skipped: PID is in managed registry)",
        Outcome.skippedSafety, none⟩
      candidates := cands, kills := [] }
  -- Dry run mode
  else if cfg.dryRun then
    { action := ⟨now, pid, rule, reason, Outcome.dryRun, none⟩
      candidates := cands, kills := [] }
  -- Verify still alive
  else if env.alive pid = false then
    { action := ⟨now, pid, rule, reason ++ " (already dead)", Outcome.skippedSafety, none⟩
      candidates := cands, kills := [] }
  -- Execute kill
  else
    let killed := env.killOk pid
    { action := ⟨now, pid, rule, reason, if killed then Outcome.killed else Outcome.failed, none⟩
      candidates := mapDelete cands pid
      kills := [pid] }

/-- Count of killed actions among those already taken in this cycle
(the `actions.filter((a) => a.outcome === killed).length` expression). -/
def countKilled (actions : List ReaperAction) : Nat :=
  (actions.filter (fun a => decide (a.outcome = Outcome.killed))).length

/-- One iteration of the two-cycle confirmation loop in `evaluate`:
first-time (or rule-changed) candidates are re-registered with a fresh
`firstSeenAt`; candidates already present under the same rule are confirmed
and passed to `executeKill`. -/
def confirmStep (cfg : ReaperConfig) (env : ReaperEnv) (killsInWindow : Nat)
    (acc : List ReaperAction × PidMap CandInfo × List Nat)
    (e : Nat × CandEntry) : List ReaperAction × PidMap CandInfo × List Nat :=
  match mapGet acc.2.1 e.1 with
  | none =>
    (acc.1, mapSet acc.2.1 e.1 ⟨e.2.rule, e.2.reason, env.now⟩, acc.2.2)
  | some prev =>
    if prev.rule = e.2.rule then
      let kr := executeKill cfg env acc.2.1 e.1 e.2.rule e.2.reason
        (killsInWindow + countKilled acc.1)
      (acc.1 ++ [kr.action], kr.candidates, acc.2.2 ++ kr.kills)
    else
      (acc.1, mapSet acc.2.1 e.1 ⟨e.2.rule, e.2.reason, env.now⟩, acc.2.2)

/-- The whole confirmation loop of `evaluate`, folded over the
`currentCandidates` map in insertion order. -/
def runConfirm (cfg : ReaperConfig) (env : ReaperEnv) (killsInWindow : Nat)
    (current : PidMap CandEntry) (cands0 : PidMap CandInfo) :
    List ReaperAction × PidMap CandInfo × List Nat :=
  current.foldl (confirmStep cfg env killsInWindow) ([], cands0, [])

/-- The action-log trim at the end of `evaluate`
(`while (actionLog.length > 100) actionLog.shift()`). -/
def trimLog (log : List ReaperAction) : List ReaperAction :=
  log.drop (log.length - 100)

/-- Result of one `evaluate` cycle: the actions returned, the new module
state, and the PIDs on which `safeKillPid` was invoked. -/
structure EvalResult where
  actions : List ReaperAction
  state : ReaperState
  kills : List Nat

/-- `evaluate` from zombieReaper.ts: one full Reaper evaluation cycle. -/
def evaluate (st : ReaperState) (env : ReaperEnv)
    (processes : List TrackedProcess) (cudaSnapshot : CudaSnapshot)
    (managedBackendPid : Option Nat) : EvalResult :=
  if st.config.enabled then
    let current := computeCandidates st.config env processes cudaSnapshot managedBackendPid
    let killsInWindow := getKillsInWindow st.actionLog st.config env.now
    let r := runConfirm st.config env killsInWindow current st.candidates
    -- Prune candidates not seen this cycle
    let cands2 := r.2.1.filter (fun e => (mapGet current e.1).isSome)
    -- Persist actions and trim the log to the last 100 entries
    let log2 := trimLog (st.actionLog ++ r.1)
    { actions := r.1
      state := { config := st.config, actionLog := log2, candidates := cands2 }
      kills := r.2.2 }
  else
    { actions := [], state := st, kills := [] }

/-! ### Process Tracker embedding (processTracker.ts) -/

/-- A raw row of the Win32_Process + Get-Process join (`RawProcessInfo`). -/
structure RawProcessInfo where
  pid : Nat
  parentPid : Nat
  name : String
  commandLine : String
  cpuSeconds : Rat
  workingSetMb : Rat
  deriving DecidableEq

/-- An entry of the `lastCpuSnapshot` map in processTracker.ts. -/
structure CpuSample where
  cpuSeconds : Rat
  timestamp : Nat
  deriving DecidableEq

/-- The module-level mutable state of processTracker.ts: the managed-PID
registry, the per-PID CPU samples, and the per-PID anomaly-cycle counters. -/
structure TrackerState where
  managedPids : List Nat
  lastCpuSnapshot : PidMap CpuSample
  staleCycles : PidMap Nat
  deriving DecidableEq

/-- Lower-casing used by `classifyRole` (`commandLine.toLowerCase()`). -/
def strLower (s : String) : String :=
  String.mk (s.data.map Char.toLower)

/-- Whether the first character list is an initial segment of the second. -/
def listStartsWith : List Char → List Char → Bool
  | [], _ => true
  | _ :: _, [] => false
  | a :: as, b :: bs => a == b && listStartsWith as bs

/-- Whether the first character list occurs inside the second. -/
def listContainsSub (pat : List Char) : List Char → Bool
  | [] => pat.isEmpty
  | c :: rest => listStartsWith pat (c :: rest) || listContainsSub pat rest

/-- Substring test used by `classifyRole` (`cmd.includes(pat)`). -/
def strIncludes (s pat : String) : Bool :=
  listContainsSub pat.data s.data

/-- `classifyRole` from processTracker.ts. -/
def classifyRole (managedPids : List Nat) (raw : RawProcessInfo) : ProcessRole :=
  let cmd := strLower raw.commandLine
  if strIncludes cmd "moshi.server" ∨ strIncludes cmd "moshi\\server" then
    if managedPids.contains raw.pid then ProcessRole.backendServer else ProcessRole.unknown
  else if managedPids.contains raw.parentPid then
    ProcessRole.modelWorker
  else if managedPids.contains raw.pid then
    ProcessRole.backendServer
  else
    ProcessRole.unknown

/-- JavaScript `Math.round`: round to nearest, ties toward positive
infinity. -/
def jsRound (q : Rat) : Int :=
  Rat.floor (q + 1 / 2)

/-- The CPU-activity delta computation inside the `scanProcesses` loop:
started at 0, and set to `Math.min(100, Math.round(dCpu / dtSec * 100))`
when a previous sample exists and the elapsed time is positive. -/
def computeCpuPercent (prev : Option CpuSample) (cpuSeconds : Rat) (now : Nat) : Int :=
  match prev with
  | none => 0
  | some p =>
    if ((now : Rat) - (p.timestamp : Rat)) / 1000 > 0 then
      min 100 (jsRound ((cpuSeconds - p.cpuSeconds) /
        (((now : Rat) - (p.timestamp : Rat)) / 1000) * 100))
    else 0

/-- `determineHealth` from processTracker.ts.  Returns the health status and
the updated `staleCycles` map (the function mutates the module-level map). -/
def determineHealth (managedPids : List Nat) (stale0 : PidMap Nat)
    (raw : RawProcessInfo) (role : ProcessRole) (cpuPercent : Int)
    (gpuMemMb : Option Nat) (alivePids : List Nat) : ProcessHealth × PidMap Nat :=
  -- If parent is dead and not init, it is a zombie
  let step1 : Option ProcessHealth × PidMap Nat :=
    if raw.parentPid > 1 ∧ alivePids.contains raw.parentPid = false ∧
        managedPids.contains raw.pid = false then
      let cycles := (mapGet stale0 raw.pid).getD 0 + 1
      let s := mapSet stale0 raw.pid cycles
      (if cycles ≥ 2 then some ProcessHealth.zombie else none, s)
    else (none, stale0)
  match step1 with
  | (some h, s) => (h, s)
  | (none, s1) =>
    -- A non-managed process sitting on GPU with no CPU activity
    let step2 : Option ProcessHealth × PidMap Nat :=
      if role = ProcessRole.unknown ∧ gpuMemMb.isSome ∧ gpuMemMb.getD 0 > 500 ∧
          cpuPercent ≤ 1 then
        let cycles := (mapGet s1 raw.pid).getD 0 + 1
        let s := mapSet s1 raw.pid cycles
        (if cycles ≥ 3 then some ProcessHealth.stale else none, s)
      else (none, s1)
    match step2 with
    | (some h, s) => (h, s)
    | (none, s2) =>
      -- Managed processes or active ones are healthy
      (ProcessHealth.healthy, mapDelete s2 raw.pid)

/-- One iteration of the `scanProcesses` loop over the raw process rows,
threading the result list, the CPU-sample map and the anomaly counters. -/
def scanStep (managedPids : List Nat) (gpuPidMemoryMap : PidMap Nat)
    (alivePids : List Nat) (now : Nat)
    (acc : List TrackedProcess × PidMap CpuSample × PidMap Nat)
    (raw : RawProcessInfo) : List TrackedProcess × PidMap CpuSample × PidMap Nat :=
  let role := classifyRole managedPids raw
  let gpuMem := mapGet gpuPidMemoryMap raw.pid
  let prev := mapGet acc.2.1 raw.pid
  let cpuPercent := computeCpuPercent prev raw.cpuSeconds now
  let cpuMap := mapSet acc.2.1 raw.pid ⟨raw.cpuSeconds, now⟩
  let hs := determineHealth managedPids acc.2.2 raw role cpuPercent gpuMem alivePids
  (acc.1 ++ [{ pid := raw.pid
               parentPid := raw.parentPid
               role := role
               startedAt := now
               lastHeartbeat := now
               commandLine := raw.commandLine
               cpuPercent := cpuPercent
               memoryMb := raw.workingSetMb
               gpuMemoryMb := gpuMem
               status := hs.1 }],
   cpuMap, hs.2)

/-- Result of one `scanProcesses` call. -/
structure ScanResult where
  procs : List TrackedProcess
  state : TrackerState
  deriving DecidableEq

/-- `scanProcesses` from processTracker.ts: classify every scanned row, then
prune the CPU-sample and anomaly-counter maps for PIDs that disappeared. -/
def scanProcesses (st : TrackerState) (rawProcesses : List RawProcessInfo)
    (gpuPidMemoryMap : PidMap Nat) (now : Nat) : ScanResult :=
  let alivePids := rawProcesses.map (fun r => r.pid)
  let r := rawProcesses.foldl (scanStep st.managedPids gpuPidMemoryMap alivePids now)
    ([], st.lastCpuSnapshot, st.staleCycles)
  -- Prune stale entries from lastCpuSnapshot (and staleCycles) for dead PIDs
  let cpuKeys := mapKeys r.2.1
  let cpuFinal := r.2.1.filter (fun e => alivePids.contains e.1)
  let staleFinal := r.2.2.filter (fun e =>
    !(cpuKeys.contains e.1 && !(alivePids.contains e.1)))
  { procs := r.1
    state := { managedPids := st.managedPids
               lastCpuSnapshot := cpuFinal
               staleCycles := staleFinal } }

/-! ### CUDA Monitor embedding (cudaMonitor.ts) -/

/-- The over-budget alert block of `generateAlerts`. -/
def overBudgetAlerts (vramBudgetMb : Nat) (g : GpuInfo) (now : Nat) : List CudaAlert :=
  if g.memoryUsedMb > vramBudgetMb then
    [⟨AlertType.overBudget, Severity.warning,
      "VRAM usage " ++ toString g.memoryUsedMb ++ " MB exceeds budget of " ++
        toString vramBudgetMb ++ " MB.", none, now⟩]
  else []

/-- The thermal alert block of `generateAlerts`. -/
def thermalAlerts (g : GpuInfo) (now : Nat) : List CudaAlert :=
  if g.temperature ≥ 90 then
    [⟨AlertType.thermal, Severity.critical,
      "GPU temperature " ++ toString g.temperature ++ "°C is critically high.", none, now⟩]
  else if g.temperature ≥ 80 then
    [⟨AlertType.thermal, Severity.warning,
      "GPU temperature " ++ toString g.temperature ++ "°C is elevated.", none, now⟩]
  else []

/-- The unmanaged-process alert block of `generateAlerts`. -/
def unmanagedAlerts (processes : List GpuProcess) (now : Nat) : List CudaAlert :=
  (processes.filter (fun p => !p.isManaged && decide (p.usedMemoryMb > 100))).map
    (fun p =>
      ⟨AlertType.unmanagedProcess, Severity.warning,
        "Unmanaged process PID " ++ toString p.pid ++ " (" ++ p.processName ++
          ") using " ++ toString p.usedMemoryMb ++ " MB VRAM.", some p.pid, now⟩)

/-- The inner part of the VRAM-leak block, matching on the previous
snapshot's GPU data (the `previousSnapshot?.gpu` optional chain). -/
def leakAlertsAux (prevGpu : Option GpuInfo) (g : GpuInfo)
    (processes : List GpuProcess) (now : Nat) : List CudaAlert :=
  match prevGpu with
  | some prevGpu =>
    if (g.memoryUsedMb : Int) - (prevGpu.memoryUsedMb : Int) > 500 ∧
        (processes.filter (fun p => p.isManaged)).length = 0 then
      [⟨AlertType.vramLeak, Severity.warning,
        "VRAM grew by " ++ toString ((g.memoryUsedMb : Int) - (prevGpu.memoryUsedMb : Int)) ++
          " MB with no managed processes on GPU. Possible leak.", none, now⟩]
    else []
  | none => []

/-- The VRAM-leak alert block of `generateAlerts`: memory growing while no
managed process is actively using the GPU. -/
def leakAlerts (previousSnapshot : Option CudaSnapshot) (g : GpuInfo)
    (processes : List GpuProcess) (now : Nat) : List CudaAlert :=
  match previousSnapshot with
  | some prev => leakAlertsAux prev.gpu g processes now
  | none => []

/-- `generateAlerts` from cudaMonitor.ts.  The module-level `vramBudgetMb`
variable and `previousSnapshot` are passed explicitly. -/
def generateAlerts (vramBudgetMb : Nat) (previousSnapshot : Option CudaSnapshot)
    (gpu : Option GpuInfo) (processes : List GpuProcess) (now : Nat) : List CudaAlert :=
  match gpu with
  | none => []
  | some g =>
    overBudgetAlerts vramBudgetMb g now ++ thermalAlerts g now ++
      unmanagedAlerts processes now ++ leakAlerts previousSnapshot g processes now

/-! ### Inference Fence embedding (inferenceFence.ts) -/

/-- The result of `canLaunchModel`. -/
structure LaunchDecision where
  allowed : Bool
  reason : Option String
  deriving DecidableEq

/-- The `activeModels` count used by the fence: GPU processes using more
than 4000 MB of VRAM. -/
def activeModelCount (cudaSnapshot : CudaSnapshot) : Nat :=
  (cudaSnapshot.processes.filter (fun p => decide (p.usedMemoryMb > 4000))).length

/-- `canLaunchModel` from inferenceFence.ts.  The module-level `config` and
`locked` flag are passed explicitly. -/
def canLaunchModel (config : FenceConfig) (locked : Bool)
    (cudaSnapshot : CudaSnapshot) : LaunchDecision :=
  if activeModelCount cudaSnapshot ≥ config.maxConcurrentModels then
    { allowed := false
      reason := some ("Already " ++ toString (activeModelCount cudaSnapshot) ++ "/" ++
        toString config.maxConcurrentModels ++
        " model(s) loaded. Kill existing before launching another.") }
  else if locked then
    { allowed := false
      reason := some "Fence is locked — another operation is in progress." }
  else
    { allowed := true, reason := none }

/-! ### Concrete scenarios

The states below are built by running the embedded functions from the
initial module state, so every scenario state is reachable. -/

/-- A Reaper config with only the orphan-kill rule on (reachable through
`updateConfig`), used for the managed-PID scenario with duplicate-model. -/
def c1Config : ReaperConfig :=
  { enabled := true, dryRun := false, maxKillsPerWindow := 3, windowMs := 300000,
    rules := { orphanKill := false, duplicateModel := true, portSquatter := false,
               staleWorker := false, vramHog := false } }

/-- Snapshot with two >4 GB GPU processes; PID 42 was stamped unmanaged at
snapshot time (it is registered between the snapshot and the evaluate). -/
def c1Snap : CudaSnapshot :=
  { timestamp := 0, gpu := none,
    processes := [⟨42, "python", 5000, false⟩, ⟨99, "python", 6000, true⟩], alerts := [] }

/-- Environment in which PID 42 is in the managed registry. -/
def c1Env (t : Nat) : ReaperEnv :=
  { now := t, managedPids := [42], portOwner := none,
    alive := fun _ => true, killOk := fun _ => true }

/-- Initial Reaper state for the managed-PID scenario. -/
def c1St0 : ReaperState := { config := c1Config, actionLog := [], candidates := [] }

/-- Reaper state after the first evaluation cycle (PID 42 is now a
registered candidate awaiting confirmation). -/
def c1St1 : ReaperState := (evaluate c1St0 (c1Env 1000) [] c1Snap none).state

/-- Reaper config with only orphan-kill enabled, used by the two-cycle
confirmation scenario. -/
def c2Config : ReaperConfig :=
  { enabled := true, dryRun := false, maxKillsPerWindow := 3, windowMs := 300000,
    rules := { orphanKill := true, duplicateModel := false, portSquatter := false,
               staleWorker := false, vramHog := false } }

/-- A zombie, unmanaged tracked process for the confirmation scenario. -/
def c2Proc : TrackedProcess :=
  { pid := 77, parentPid := 0, role := ProcessRole.unknown, startedAt := 0, lastHeartbeat := 0,
    commandLine := "python worker.py", cpuPercent := 0, memoryMb := 100, gpuMemoryMb := none,
    status := ProcessHealth.zombie }

/-- Empty CUDA snapshot for the confirmation scenario. -/
def c2Snap : CudaSnapshot := { timestamp := 0, gpu := none, processes := [], alerts := [] }

/-- Environment for the confirmation scenario. -/
def c2Env (t : Nat) : ReaperEnv :=
  { now := t, managedPids := [], portOwner := none,
    alive := fun _ => true, killOk := fun _ => true }

/-- A Reaper state carrying a stale candidate entry for PID 55 from the
previous cycle (reachable by a cycle in which PID 55 was flagged). -/
def c2St : ReaperState :=
  { config := c2Config, actionLog := [],
    candidates := [(55, ⟨ReaperRuleName.orphanKill, "stale candidate", 500⟩)] }

/-- The tracker scan row of an unmanaged process whose parent PID 600 is
absent from the scan. -/
def c3Raw : RawProcessInfo :=
  { pid := 700, parentPid := 600, name := "python", commandLine := "python orphan.py",
    cpuSeconds := 0, workingSetMb := 50 }

/-- Initial tracker state: nothing registered, no samples, no counters. -/
def c3State0 : TrackerState := { managedPids := [], lastCpuSnapshot := [], staleCycles := [] }

/-- First scan observing the dead-parent condition. -/
def c3Scan1 : ScanResult := scanProcesses c3State0 [c3Raw] [] 1000

/-- Second consecutive scan observing the same dead-parent condition. -/
def c3Scan2 : ScanResult := scanProcesses c3Scan1.state [c3Raw] [] 6000

/-- 104 zombie, unmanaged processes (PIDs 1..104): enough confirmed
candidates to overflow the 100-entry action log in one cycle under the
default configuration. -/
def c4Procs : List TrackedProcess :=
  (List.range 104).map (fun n =>
    { pid := n + 1, parentPid := 0, role := ProcessRole.unknown, startedAt := 0,
      lastHeartbeat := 0, commandLine := "python worker.py", cpuPercent := 0, memoryMb := 100,
      gpuMemoryMb := none, status := ProcessHealth.zombie })

/-- Empty CUDA snapshot for the rate-limit scenario. -/
def c4Snap : CudaSnapshot := { timestamp := 0, gpu := none, processes := [], alerts := [] }

/-- Environment for the rate-limit scenario: all PIDs alive, kills succeed. -/
def c4Env (t : Nat) : ReaperEnv :=
  { now := t, managedPids := [], portOwner := none,
    alive := fun _ => true, killOk := fun _ => true }

/-- Initial Reaper state for the rate-limit scenario, with the default
configuration (maxKillsPerWindow = 3, windowMs = 300000, all rules on). -/
def c4St0 : ReaperState := { config := DEFAULT_REAPER_CONFIG, actionLog := [], candidates := [] }

/-- Cycle 0 at t=1000: all 101 PIDs become first-seen candidates. -/
def c4Cyc0 : EvalResult := evaluate c4St0 (c4Env 1000) c4Procs c4Snap none

/-- Cycle 1 at t=2000: PIDs 1..3 are killed, PIDs 4..104 are skipped by the
breaker; 104 actions are logged and the log trim evicts the kill entries. -/
def c4Cyc1 : EvalResult := evaluate c4Cyc0.state (c4Env 2000) c4Procs c4Snap none

/-- Cycle 2 at t=12000: the breaker sees zero kills in the log and allows
three further kills 10 s after the first three. -/
def c4Cyc2 : EvalResult := evaluate c4Cyc1.state (c4Env 12000) c4Procs c4Snap none

/-- Reaper config with dry-run on and `maxKillsPerWindow = 0` (reachable
through `updateConfig`). -/
def c5Config : ReaperConfig :=
  { enabled := true, dryRun := true, maxKillsPerWindow := 0, windowMs := 300000,
    rules := { orphanKill := true, duplicateModel := false, portSquatter := false,
               staleWorker := false, vramHog := false } }

/-- A zombie, unmanaged tracked process for the dry-run scenario. -/
def c5Proc : TrackedProcess :=
  { pid := 42, parentPid := 0, role := ProcessRole.unknown, startedAt := 0, lastHeartbeat := 0,
    commandLine := "python worker.py", cpuPercent := 0, memoryMb := 100, gpuMemoryMb := none,
    status := ProcessHealth.zombie }

/-- Empty CUDA snapshot for the dry-run scenario. -/
def c5Snap : CudaSnapshot := { timestamp := 0, gpu := none, processes := [], alerts := [] }

/-- Environment for the dry-run scenario. -/
def c5Env (t : Nat) : ReaperEnv :=
  { now := t, managedPids := [], portOwner := none,
    alive := fun _ => true, killOk := fun _ => true }

/-- Initial Reaper state for the dry-run scenario. -/
def c5St0 : ReaperState := { config := c5Config, actionLog := [], candidates := [] }

/-- First dry-run cycle: PID 42 becomes a candidate. -/
def c5Cyc1 : EvalResult := evaluate c5St0 (c5Env 1000) [c5Proc] c5Snap none

/-- Second dry-run cycle: PID 42 is confirmed; the circuit breaker fires
before the dry-run check. -/
def c5Cyc2 : EvalResult := evaluate c5Cyc1.state (c5Env 2000) [c5Proc] c5Snap none

/-- A dry-run config whose kill budget is not exhausted. -/
def c5WConfig : ReaperConfig :=
  { enabled := true, dryRun := true, maxKillsPerWindow := 3, windowMs := 300000,
    rules := { orphanKill := true, duplicateModel := false, portSquatter := false,
               staleWorker := false, vramHog := false } }

/-- Initial Reaper state for the dry-run witness scenario. -/
def c5WSt0 : ReaperState := { config := c5WConfig, actionLog := [], candidates := [] }

/-- State after the first dry-run witness cycle (PID 42 is a candidate). -/
def c5WSt1 : ReaperState := (evaluate c5WSt0 (c5Env 1000) [c5Proc] c5Snap none).state

/-- Reaper config with only orphan-kill on for the idempotence scenario. -/
def c6Config : ReaperConfig :=
  { enabled := true, dryRun := false, maxKillsPerWindow := 3, windowMs := 300000,
    rules := { orphanKill := true, duplicateModel := false, portSquatter := false,
               staleWorker := false, vramHog := false } }

/-- A zombie, unmanaged tracked process for the idempotence scenario. -/
def c6Proc : TrackedProcess :=
  { pid := 42, parentPid := 0, role := ProcessRole.unknown, startedAt := 0, lastHeartbeat := 0,
    commandLine := "python worker.py", cpuPercent := 0, memoryMb := 100, gpuMemoryMb := none,
    status := ProcessHealth.zombie }

/-- Empty CUDA snapshot for the idempotence scenario. -/
def c6Snap : CudaSnapshot := { timestamp := 0, gpu := none, processes := [], alerts := [] }

/-- Environment for the idempotence scenario (the process stays alive). -/
def c6Env (t : Nat) : ReaperEnv :=
  { now := t, managedPids := [], portOwner := none,
    alive := fun _ => true, killOk := fun _ => true }

/-- Initial Reaper state for the idempotence scenario. -/
def c6St0 : ReaperState := { config := c6Config, actionLog := [], candidates := [] }

/-- Cycle 1: PID 42 flagged. -/
def c6Cyc1 : EvalResult := evaluate c6St0 (c6Env 1000) [c6Proc] c6Snap none

/-- Cycle 2 over the same snapshots: PID 42 confirmed and killed. -/
def c6Cyc2 : EvalResult := evaluate c6Cyc1.state (c6Env 2000) [c6Proc] c6Snap none

/-- Cycle 3 over the same snapshots: PID 42 re-registered (no action). -/
def c6Cyc3 : EvalResult := evaluate c6Cyc2.state (c6Env 3000) [c6Proc] c6Snap none

/-- Cycle 4 over the same snapshots: PID 42 confirmed and killed again. -/
def c6Cyc4 : EvalResult := evaluate c6Cyc3.state (c6Env 4000) [c6Proc] c6Snap none

/-- First tracker scan row for the CPU-delta scenario: 10 CPU-seconds. -/
def c7Raw1 : RawProcessInfo :=
  { pid := 700, parentPid := 1, name := "python", commandLine := "python x.py",
    cpuSeconds := 10, workingSetMb := 50 }

/-- Second tracker scan row: the CPU-seconds sample dropped to 5. -/
def c7Raw2 : RawProcessInfo :=
  { pid := 700, parentPid := 1, name := "python", commandLine := "python x.py",
    cpuSeconds := 5, workingSetMb := 50 }

/-- Initial tracker state for the CPU-delta scenario. -/
def c7State0 : TrackerState := { managedPids := [], lastCpuSnapshot := [], staleCycles := [] }

/-- First scan at t=1000 records the 10-second CPU sample. -/
def c7Scan1 : ScanResult := scanProcesses c7State0 [c7Raw1] [] 1000

/-- Second scan at t=2000 sees the sample decrease by 5 CPU-seconds over a
1-second wall interval. -/
def c7Scan2 : ScanResult := scanProcesses c7Scan1.state [c7Raw2] [] 2000

/-- Previous GPU reading for the VRAM-leak scenario: 1000 MB used. -/
def c8PrevGpu : GpuInfo :=
  { name := "RTX", memoryUsedMb := 1000, memoryTotalMb := 16000, memoryFreeMb := 15000,
    utilizationPercent := 10, temperature := 50 }

/-- Current GPU reading: 1800 MB used — an 800 MB jump. -/
def c8CurGpu : GpuInfo :=
  { name := "RTX", memoryUsedMb := 1800, memoryTotalMb := 16000, memoryFreeMb := 14200,
    utilizationPercent := 10, temperature := 50 }

/-- The previous snapshot retained by the CUDA monitor. -/
def c8PrevSnap : CudaSnapshot :=
  { timestamp := 0, gpu := some c8PrevGpu, processes := [], alerts := [] }

/-- A managed GPU-resident process. -/
def c8ManagedProc : GpuProcess :=
  { pid := 7, processName := "moshi", usedMemoryMb := 800, isManaged := true }

/-- CUDA snapshot with one process above the model-size floor, for the
fence scenario. -/
def c9Snap : CudaSnapshot :=
  { timestamp := 0, gpu := none,
    processes := [⟨5, "python", 5000, true⟩], alerts := [] }

/-- A disabled Reaper configuration. -/
def c10Config : ReaperConfig :=
  { enabled := false, dryRun := false, maxKillsPerWindow := 3, windowMs := 300000,
    rules := { orphanKill := true, duplicateModel := true, portSquatter := true,
               staleWorker := true, vramHog := true } }

/-- A Reaper state with the daemon disabled but candidates and log entries
present. -/
def c10St : ReaperState :=
  { config := c10Config,
    actionLog := [⟨100, 9, ReaperRuleName.orphanKill, "old", Outcome.killed, none⟩],
    candidates := [(9, ⟨ReaperRuleName.orphanKill, "old", 100⟩)] }

/-- A zombie, unmanaged tracked process for the disabled scenario. -/
def c10Proc : TrackedProcess :=
  { pid := 9, parentPid := 0, role := ProcessRole.unknown, startedAt := 0, lastHeartbeat := 0,
    commandLine := "python worker.py", cpuPercent := 0, memoryMb := 100, gpuMemoryMb := none,
    status := ProcessHealth.zombie }

/-- Empty CUDA snapshot for the disabled scenario. -/
def c10Snap : CudaSnapshot := { timestamp := 0, gpu := none, processes := [], alerts := [] }

/-- Environment for the disabled scenario. -/
def c10Env : ReaperEnv :=
  { now := 2000, managedPids := [], portOwner := none,
    alive := fun _ => true, killOk := fun _ => true }

/-! ### Lemmas about the `PidMap` operations -/

theorem mapGet_mapSet_self {α : Type} (m : PidMap α) (k : Nat) (v : α) :
    mapGet (mapSet m k v) k = some v := by
  induction m with
  | nil => simp [mapSet, mapGet]
  | cons e rest ih =>
    by_cases h : e.1 = k
    · simp [mapSet, h, mapGet]
    · simp [mapSet, h, mapGet, ih]

theorem mapGet_mapSet_ne {α : Type} (m : PidMap α) (k q : Nat) (v : α) (h : q ≠ k) :
    mapGet (mapSet m k v) q = mapGet m q := by
  have hkq : ¬ (k = q) := fun hh => h hh.symm
  induction m with
  | nil => simp [mapSet, mapGet, hkq]
  | cons e rest ih =>
    by_cases he : e.1 = k
    · have heq : ¬ (e.1 = q) := by rw [he]; exact hkq
      rw [show mapSet (e :: rest) k v = if e.1 = k then (k, v) :: rest else e :: mapSet rest k v
          from rfl, if_pos he]
      rw [show mapGet ((k, v) :: rest) q = if k = q then some v else mapGet rest q from rfl,
        if_neg hkq]
      rw [show mapGet (e :: rest) q = if e.1 = q then some e.2 else mapGet rest q from rfl,
        if_neg heq]
    · rw [show mapSet (e :: rest) k v = if e.1 = k then (k, v) :: rest else e :: mapSet rest k v
          from rfl, if_neg he]
      rw [show mapGet (e :: mapSet rest k v) q =
          if e.1 = q then some e.2 else mapGet (mapSet rest k v) q from rfl]
      rw [show mapGet (e :: rest) q = if e.1 = q then some e.2 else mapGet rest q from rfl]
      by_cases hq : e.1 = q
      · rw [if_pos hq, if_pos hq]
      · rw [if_neg hq, if_neg hq, ih]

theorem mapGet_mapDelete_self {α : Type} (m : PidMap α) (k : Nat) :
    mapGet (mapDelete m k) k = none := by
  induction m with
  | nil => simp [mapDelete, mapGet]
  | cons e rest ih =>
    by_cases h : e.1 = k
    · simp [mapDelete, h, ih]
    · simp [mapDelete, h, mapGet, ih]

theorem mapGet_mapDelete_ne {α : Type} (m : PidMap α) (k q : Nat) (h : q ≠ k) :
    mapGet (mapDelete m k) q = mapGet m q := by
  induction m with
  | nil => simp [mapDelete]
  | cons e rest ih =>
    by_cases he : e.1 = k
    · have heq : ¬ (e.1 = q) := fun hh => h (hh ▸ he)
      rw [show mapDelete (e :: rest) k = if e.1 = k then mapDelete rest k else e :: mapDelete rest k
          from rfl, if_pos he]
      rw [show mapGet (e :: rest) q = if e.1 = q then some e.2 else mapGet rest q from rfl,
        if_neg heq, ih]
    · rw [show mapDelete (e :: rest) k = if e.1 = k then mapDelete rest k else e :: mapDelete rest k
          from rfl, if_neg he]
      rw [show mapGet (e :: mapDelete rest k) q =
          if e.1 = q then some e.2 else mapGet (mapDelete rest k) q from rfl]
      rw [show mapGet (e :: rest) q = if e.1 = q then some e.2 else mapGet rest q from rfl]
      by_cases hq : e.1 = q
      · rw [if_pos hq, if_pos hq]
      · rw [if_neg hq, if_neg hq, ih]

theorem mapGet_filter_key {α : Type} (p : Nat → Bool) (m : PidMap α) (k : Nat) :
    mapGet (m.filter (fun e => p e.1)) k = if p k then mapGet m k else none := by
  induction m with
  | nil => cases hp : p k <;> simp [mapGet, hp]
  | cons e rest ih =>
    rw [List.filter_cons]
    by_cases he : e.1 = k
    · cases hp : p e.1
      · have hpk : p k = false := he ▸ hp
        simp only [hp, Bool.false_eq_true, if_false, ih, hpk]
      · have hpk : p k = true := he ▸ hp
        simp only [hp, if_true, hpk]
        simp [mapGet, he]
    · cases hp : p e.1
      · rw [if_neg (by simp [hp]), ih]
        by_cases hpk : p k = true
        · simp only [hpk, if_true]
          simp [mapGet, he]
        · simp [hpk]
      · rw [if_pos (by simp [hp])]
        show (if e.1 = k then some e.2 else mapGet (rest.filter (fun e => p e.1)) k) = _
        rw [if_neg he, ih]
        by_cases hpk : p k = true
        · simp only [hpk, if_true]
          simp [mapGet, he]
        · simp [hpk]

theorem mem_keys_mapSet {α : Type} (m : PidMap α) (k q : Nat) (v : α) :
    q ∈ mapKeys (mapSet m k v) ↔ q ∈ mapKeys m ∨ q = k := by
  induction m with
  | nil =>
    constructor
    · intro hq
      right
      simpa [mapSet, mapKeys] using hq
    · intro hq
      rcases hq with hq | hq
      · simp [mapKeys] at hq
      · simp [mapSet, mapKeys, hq]
  | cons e rest ih =>
    by_cases he : e.1 = k
    · show q ∈ mapKeys (if e.1 = k then (k, v) :: rest else e :: mapSet rest k v) ↔ _
      rw [if_pos he]
      show q ∈ k :: mapKeys rest ↔ q ∈ e.1 :: mapKeys rest ∨ q = k
      rw [he]
      simp [List.mem_cons]
      tauto
    · show q ∈ mapKeys (if e.1 = k then (k, v) :: rest else e :: mapSet rest k v) ↔ _
      rw [if_neg he]
      show q ∈ e.1 :: mapKeys (mapSet rest k v) ↔ q ∈ e.1 :: mapKeys rest ∨ q = k
      simp only [List.mem_cons, ih]
      tauto

theorem nodup_keys_mapSet {α : Type} (m : PidMap α) (k : Nat) (v : α)
    (h : (mapKeys m).Nodup) : (mapKeys (mapSet m k v)).Nodup := by
  induction m with
  | nil => simp [mapSet, mapKeys]
  | cons e rest ih =>
    rw [show mapKeys (e :: rest) = e.1 :: mapKeys rest from rfl, List.nodup_cons] at h
    by_cases he : e.1 = k
    · show (mapKeys (if e.1 = k then (k, v) :: rest else e :: mapSet rest k v)).Nodup
      rw [if_pos he]
      show (k :: mapKeys rest).Nodup
      rw [List.nodup_cons]
      exact ⟨he ▸ h.1, h.2⟩
    · show (mapKeys (if e.1 = k then (k, v) :: rest else e :: mapSet rest k v)).Nodup
      rw [if_neg he]
      show (e.1 :: mapKeys (mapSet rest k v)).Nodup
      rw [List.nodup_cons]
      refine ⟨?_, ih h.2⟩
      intro hmem
      rcases (mem_keys_mapSet rest k e.1 v).mp hmem with hin | hk
      · exact h.1 hin
      · exact he hk

theorem mapGet_eq_none_iff {α : Type} (m : PidMap α) (k : Nat) :
    mapGet m k = none ↔ k ∉ mapKeys m := by
  induction m with
  | nil => simp [mapGet, mapKeys]
  | cons e rest ih =>
    by_cases he : e.1 = k
    · rw [show mapGet (e :: rest) k = if e.1 = k then some e.2 else mapGet rest k from rfl,
        if_pos he]
      show some e.2 = none ↔ k ∉ e.1 :: mapKeys rest
      simp [List.mem_cons, he]
    · have hk : ¬ (k = e.1) := fun hh => he hh.symm
      rw [show mapGet (e :: rest) k = if e.1 = k then some e.2 else mapGet rest k from rfl,
        if_neg he]
      show mapGet rest k = none ↔ k ∉ e.1 :: mapKeys rest
      rw [ih]
      simp [List.mem_cons, hk]

theorem nodup_mapGet_of_mem {α : Type} (m : PidMap α) (k : Nat) (v : α)
    (hnd : (mapKeys m).Nodup) (hmem : (k, v) ∈ m) : mapGet m k = some v := by
  induction m with
  | nil => simp at hmem
  | cons e rest ih =>
    rw [show mapKeys (e :: rest) = e.1 :: mapKeys rest from rfl, List.nodup_cons] at hnd
    rcases List.mem_cons.mp hmem with heq | hrest
    · cases heq
      simp [mapGet]
    · have hk : k ∈ mapKeys rest := List.mem_map_of_mem Prod.fst hrest
      have he : ¬ (e.1 = k) := fun hh => hnd.1 (hh ▸ hk)
      rw [show mapGet (e :: rest) k = if e.1 = k then some e.2 else mapGet rest k from rfl,
        if_neg he]
      exact ih hnd.2 hrest

theorem mapGet_mem {α : Type} (m : PidMap α) (k : Nat) (v : α)
    (h : mapGet m k = some v) : (k, v) ∈ m := by
  induction m with
  | nil => simp [mapGet] at h
  | cons e rest ih =>
    by_cases he : e.1 = k
    · rw [show mapGet (e :: rest) k = if e.1 = k then some e.2 else mapGet rest k from rfl,
        if_pos he] at h
      have hv : e.2 = v := Option.some.inj h
      have hkv : (k, v) = e := by rw [← he, ← hv]
      exact List.mem_cons.mpr (Or.inl hkv)
    · rw [show mapGet (e :: rest) k = if e.1 = k then some e.2 else mapGet rest k from rfl,
        if_neg he] at h
      exact List.mem_cons.mpr (Or.inr (ih h))

/-! ### Lemmas about `executeKill` -/

theorem executeKill_targetPid (cfg : ReaperConfig) (env : ReaperEnv) (cands : PidMap CandInfo)
    (pid : Nat) (rule : ReaperRuleName) (reason : String) (n : Nat) :
    (executeKill cfg env cands pid rule reason n).action.targetPid = pid := by
  unfold executeKill
  split
  · rfl
  · split
    · rfl
    · split
      · rfl
      · split
        · rfl
        · rfl

theorem executeKill_rule (cfg : ReaperConfig) (env : ReaperEnv) (cands : PidMap CandInfo)
    (pid : Nat) (rule : ReaperRuleName) (reason : String) (n : Nat) :
    (executeKill cfg env cands pid rule reason n).action.rule = rule := by
  unfold executeKill
  split
  · rfl
  · split
    · rfl
    · split
      · rfl
      · split
        · rfl
        · rfl

theorem executeKill_timestamp (cfg : ReaperConfig) (env : ReaperEnv) (cands : PidMap CandInfo)
    (pid : Nat) (rule : ReaperRuleName) (reason : String) (n : Nat) :
    (executeKill cfg env cands pid rule reason n).action.timestamp = env.now := by
  unfold executeKill
  split
  · rfl
  · split
    · rfl
    · split
      · rfl
      · split
        · rfl
        · rfl

theorem executeKill_managed (cfg : ReaperConfig) (env : ReaperEnv) (cands : PidMap CandInfo)
    (pid : Nat) (rule : ReaperRuleName) (reason : String) (n : Nat)
    (h : isManagedPid env pid = true) :
    (executeKill cfg env cands pid rule reason n).action.outcome = Outcome.skippedSafety ∧
    (executeKill cfg env cands pid rule reason n).kills = [] := by
  unfold executeKill
  by_cases h1 : n ≥ cfg.maxKillsPerWindow
  · rw [if_pos h1]
    exact ⟨rfl, rfl⟩
  · rw [if_neg h1, if_pos h]
    exact ⟨rfl, rfl⟩

theorem executeKill_kills_unmanaged (cfg : ReaperConfig) (env : ReaperEnv)
    (cands : PidMap CandInfo) (pid : Nat) (rule : ReaperRuleName) (reason : String) (n : Nat) :
    ∀ p ∈ (executeKill cfg env cands pid rule reason n).kills, isManagedPid env p = false := by
  unfold executeKill
  by_cases h1 : n ≥ cfg.maxKillsPerWindow
  · rw [if_pos h1]
    intro p hp
    simp at hp
  · rw [if_neg h1]
    by_cases h2 : isManagedPid env pid = true
    · rw [if_pos h2]
      intro p hp
      simp at hp
    · rw [if_neg h2]
      simp only [Bool.not_eq_true] at h2
      by_cases h3 : cfg.dryRun = true
      · rw [if_pos h3]
        intro p hp
        simp at hp
      · rw [if_neg h3]
        by_cases h4 : env.alive pid = false
        · rw [if_pos h4]
          intro p hp
          simp at hp
        · rw [if_neg h4]
          intro p hp
          have hp2 : p = pid := by simpa using hp
          rw [hp2]
          exact h2

theorem executeKill_dryRun (cfg : ReaperConfig) (env : ReaperEnv) (cands : PidMap CandInfo)
    (pid : Nat) (rule : ReaperRuleName) (reason : String) (n : Nat)
    (hd : cfg.dryRun = true) :
    ((executeKill cfg env cands pid rule reason n).action.outcome = Outcome.dryRun ∨
      (executeKill cfg env cands pid rule reason n).action.outcome = Outcome.skippedSafety) ∧
    (executeKill cfg env cands pid rule reason n).kills = [] := by
  unfold executeKill
  by_cases h1 : n ≥ cfg.maxKillsPerWindow
  · rw [if_pos h1]
    exact ⟨Or.inr rfl, rfl⟩
  · rw [if_neg h1]
    by_cases h2 : isManagedPid env pid = true
    · rw [if_pos h2]
      exact ⟨Or.inr rfl, rfl⟩
    · rw [if_neg h2, if_pos hd]
      exact ⟨Or.inl rfl, rfl⟩

theorem executeKill_dryRun_pos (cfg : ReaperConfig) (env : ReaperEnv) (cands : PidMap CandInfo)
    (pid : Nat) (rule : ReaperRuleName) (reason : String) (n : Nat)
    (hd : cfg.dryRun = true) (hlt : n < cfg.maxKillsPerWindow)
    (hm : isManagedPid env pid = false) :
    (executeKill cfg env cands pid rule reason n).action.outcome = Outcome.dryRun := by
  unfold executeKill
  rw [if_neg (Nat.not_le.mpr hlt), if_neg (by simp [hm]), if_pos hd]

theorem executeKill_killed_deleted (cfg : ReaperConfig) (env : ReaperEnv)
    (cands : PidMap CandInfo) (pid : Nat) (rule : ReaperRuleName) (reason : String) (n : Nat)
    (h : (executeKill cfg env cands pid rule reason n).action.outcome = Outcome.killed ∨
      (executeKill cfg env cands pid rule reason n).action.outcome = Outcome.failed) :
    (executeKill cfg env cands pid rule reason n).candidates = mapDelete cands pid := by
  unfold executeKill at h ⊢
  by_cases h1 : n ≥ cfg.maxKillsPerWindow
  · rw [if_pos h1] at h
    rcases h with h | h <;> exact absurd h (by simp)
  · rw [if_neg h1] at h ⊢
    by_cases h2 : isManagedPid env pid = true
    · rw [if_pos h2] at h
      rcases h with h | h <;> exact absurd h (by simp)
    · rw [if_neg h2] at h ⊢
      by_cases h3 : cfg.dryRun = true
      · rw [if_pos h3] at h
        rcases h with h | h <;> exact absurd h (by simp)
      · rw [if_neg h3] at h ⊢
        by_cases h4 : env.alive pid = false
        · rw [if_pos h4] at h
          rcases h with h | h <;> exact absurd h (by simp)
        · rw [if_neg h4]

theorem executeKill_get_ne (cfg : ReaperConfig) (env : ReaperEnv) (cands : PidMap CandInfo)
    (pid : Nat) (rule : ReaperRuleName) (reason : String) (n : Nat) (q : Nat) (hq : q ≠ pid) :
    mapGet (executeKill cfg env cands pid rule reason n).candidates q = mapGet cands q := by
  unfold executeKill
  by_cases h1 : n ≥ cfg.maxKillsPerWindow
  · rw [if_pos h1]
  · rw [if_neg h1]
    by_cases h2 : isManagedPid env pid = true
    · rw [if_pos h2]
    · rw [if_neg h2]
      by_cases h3 : cfg.dryRun = true
      · rw [if_pos h3]
      · rw [if_neg h3]
        by_cases h4 : env.alive pid = false
        · rw [if_pos h4]
        · rw [if_neg h4]
          exact mapGet_mapDelete_ne cands pid q hq

/-! ### Lemmas about the confirmation loop -/

theorem countKilled_eq_zero (l : List ReaperAction)
    (h : ∀ a ∈ l, a.outcome ≠ Outcome.killed) : countKilled l = 0 := by
  unfold countKilled
  rw [List.length_eq_zero, List.filter_eq_nil_iff]
  intro a ha
  simpa using h a ha

theorem confirmStep_none (cfg : ReaperConfig) (env : ReaperEnv) (kiw : Nat)
    (acc : List ReaperAction × PidMap CandInfo × List Nat) (e : Nat × CandEntry)
    (h : mapGet acc.2.1 e.1 = none) :
    confirmStep cfg env kiw acc e =
      (acc.1, mapSet acc.2.1 e.1 ⟨e.2.rule, e.2.reason, env.now⟩, acc.2.2) := by
  unfold confirmStep
  rw [h]

theorem confirmStep_mismatch (cfg : ReaperConfig) (env : ReaperEnv) (kiw : Nat)
    (acc : List ReaperAction × PidMap CandInfo × List Nat) (e : Nat × CandEntry)
    (prev : CandInfo) (h : mapGet acc.2.1 e.1 = some prev) (hr : ¬ (prev.rule = e.2.rule)) :
    confirmStep cfg env kiw acc e =
      (acc.1, mapSet acc.2.1 e.1 ⟨e.2.rule, e.2.reason, env.now⟩, acc.2.2) := by
  unfold confirmStep
  rw [h]
  exact if_neg hr

theorem confirmStep_confirmed (cfg : ReaperConfig) (env : ReaperEnv) (kiw : Nat)
    (acc : List ReaperAction × PidMap CandInfo × List Nat) (e : Nat × CandEntry)
    (prev : CandInfo) (h : mapGet acc.2.1 e.1 = some prev) (hr : prev.rule = e.2.rule) :
    confirmStep cfg env kiw acc e =
      (acc.1 ++ [(executeKill cfg env acc.2.1 e.1 e.2.rule e.2.reason
          (kiw + countKilled acc.1)).action],
        (executeKill cfg env acc.2.1 e.1 e.2.rule e.2.reason (kiw + countKilled acc.1)).candidates,
        acc.2.2 ++ (executeKill cfg env acc.2.1 e.1 e.2.rule e.2.reason
          (kiw + countKilled acc.1)).kills) := by
  unfold confirmStep
  rw [h]
  exact if_pos hr

theorem foldl_confirm_managed (cfg : ReaperConfig) (env : ReaperEnv) (kiw : Nat)
    (l : List (Nat × CandEntry)) :
    ∀ (acc : List ReaperAction × PidMap CandInfo × List Nat),
    (∀ a ∈ acc.1, isManagedPid env a.targetPid = true → a.outcome = Outcome.skippedSafety) →
    (∀ p ∈ acc.2.2, isManagedPid env p = false) →
    (∀ a ∈ (List.foldl (confirmStep cfg env kiw) acc l).1,
        isManagedPid env a.targetPid = true → a.outcome = Outcome.skippedSafety) ∧
    (∀ p ∈ (List.foldl (confirmStep cfg env kiw) acc l).2.2, isManagedPid env p = false) := by
  induction l with
  | nil =>
    intro acc h1 h2
    exact ⟨h1, h2⟩
  | cons e rest ih =>
    intro acc h1 h2
    rw [List.foldl_cons]
    rcases hm : mapGet acc.2.1 e.1 with _ | prev
    · rw [confirmStep_none cfg env kiw acc e hm]
      exact ih _ h1 h2
    · by_cases hr : prev.rule = e.2.rule
      · rw [confirmStep_confirmed cfg env kiw acc e prev hm hr]
        apply ih
        · intro a ha hman
          rcases List.mem_append.mp ha with ha | ha
          · exact h1 a ha hman
          · have haeq : a = (executeKill cfg env acc.2.1 e.1 e.2.rule e.2.reason
                (kiw + countKilled acc.1)).action := by simpa using ha
            rw [haeq] at hman ⊢
            rw [executeKill_targetPid] at hman
            exact (executeKill_managed cfg env acc.2.1 e.1 e.2.rule e.2.reason
              (kiw + countKilled acc.1) hman).1
        · intro p hp
          rcases List.mem_append.mp hp with hp | hp
          · exact h2 p hp
          · exact executeKill_kills_unmanaged cfg env acc.2.1 e.1 e.2.rule e.2.reason
              (kiw + countKilled acc.1) p hp
      · rw [confirmStep_mismatch cfg env kiw acc e prev hm hr]
        exact ih _ h1 h2

theorem foldl_confirm_dryRun (cfg : ReaperConfig) (env : ReaperEnv) (kiw : Nat)
    (hd : cfg.dryRun = true) (l : List (Nat × CandEntry)) :
    ∀ (acc : List ReaperAction × PidMap CandInfo × List Nat),
    (∀ a ∈ acc.1, (a.outcome = Outcome.dryRun ∨ a.outcome = Outcome.skippedSafety) ∧
      (kiw < cfg.maxKillsPerWindow → isManagedPid env a.targetPid = false →
        a.outcome = Outcome.dryRun)) →
    acc.2.2 = [] →
    (∀ a ∈ (List.foldl (confirmStep cfg env kiw) acc l).1,
      (a.outcome = Outcome.dryRun ∨ a.outcome = Outcome.skippedSafety) ∧
      (kiw < cfg.maxKillsPerWindow → isManagedPid env a.targetPid = false →
        a.outcome = Outcome.dryRun)) ∧
    (List.foldl (confirmStep cfg env kiw) acc l).2.2 = [] := by
  induction l with
  | nil =>
    intro acc h1 h2
    exact ⟨h1, h2⟩
  | cons e rest ih =>
    intro acc h1 h2
    rw [List.foldl_cons]
    rcases hm : mapGet acc.2.1 e.1 with _ | prev
    · rw [confirmStep_none cfg env kiw acc e hm]
      exact ih _ h1 h2
    · by_cases hr : prev.rule = e.2.rule
      · rw [confirmStep_confirmed cfg env kiw acc e prev hm hr]
        have hck : countKilled acc.1 = 0 := by
          apply countKilled_eq_zero
          intro a ha
          rcases (h1 a ha).1 with h | h <;> simp [h]
        apply ih
        · intro a ha
          rcases List.mem_append.mp ha with ha | ha
          · exact h1 a ha
          · have haeq : a = (executeKill cfg env acc.2.1 e.1 e.2.rule e.2.reason
                (kiw + countKilled acc.1)).action := by simpa using ha
            rw [haeq]
            constructor
            · exact (executeKill_dryRun cfg env acc.2.1 e.1 e.2.rule e.2.reason
                (kiw + countKilled acc.1) hd).1
            · intro hlt hman
              rw [executeKill_targetPid] at hman
              apply executeKill_dryRun_pos cfg env acc.2.1 e.1 e.2.rule e.2.reason
                (kiw + countKilled acc.1) hd _ hman
              rw [hck]
              omega
        · rw [h2]
          rw [(executeKill_dryRun cfg env acc.2.1 e.1 e.2.rule e.2.reason
            (kiw + countKilled acc.1) hd).2]
          rfl
      · rw [confirmStep_mismatch cfg env kiw acc e prev hm hr]
        exact ih _ h1 h2

theorem foldl_confirm_targets (cfg : ReaperConfig) (env : ReaperEnv) (kiw : Nat)
    (l : List (Nat × CandEntry)) :
    ∀ (acc : List ReaperAction × PidMap CandInfo × List Nat),
    ∀ a ∈ (List.foldl (confirmStep cfg env kiw) acc l).1,
      a ∈ acc.1 ∨ ∃ e ∈ l, a.targetPid = e.1 := by
  induction l with
  | nil =>
    intro acc a ha
    exact Or.inl ha
  | cons e rest ih =>
    intro acc a ha
    rw [List.foldl_cons] at ha
    rcases hm : mapGet acc.2.1 e.1 with _ | prev
    · rw [confirmStep_none cfg env kiw acc e hm] at ha
      rcases ih _ a ha with h | ⟨e2, he2, ht⟩
      · exact Or.inl h
      · exact Or.inr ⟨e2, List.mem_cons_of_mem _ he2, ht⟩
    · by_cases hr : prev.rule = e.2.rule
      · rw [confirmStep_confirmed cfg env kiw acc e prev hm hr] at ha
        rcases ih _ a ha with h | ⟨e2, he2, ht⟩
        · rcases List.mem_append.mp h with h | h
          · exact Or.inl h
          · refine Or.inr ⟨e, List.mem_cons_self e rest, ?_⟩
            have haeq : a = (executeKill cfg env acc.2.1 e.1 e.2.rule e.2.reason
                (kiw + countKilled acc.1)).action := by simpa using h
            rw [haeq]
            exact executeKill_targetPid cfg env acc.2.1 e.1 e.2.rule e.2.reason
              (kiw + countKilled acc.1)
        · exact Or.inr ⟨e2, List.mem_cons_of_mem _ he2, ht⟩
      · rw [confirmStep_mismatch cfg env kiw acc e prev hm hr] at ha
        rcases ih _ a ha with h | ⟨e2, he2, ht⟩
        · exact Or.inl h
        · exact Or.inr ⟨e2, List.mem_cons_of_mem _ he2, ht⟩

theorem foldl_confirm_untouched (cfg : ReaperConfig) (env : ReaperEnv) (kiw : Nat)
    (l : List (Nat × CandEntry)) (pid : Nat) :
    ∀ (acc : List ReaperAction × PidMap CandInfo × List Nat),
    pid ∉ List.map Prod.fst l →
    mapGet (List.foldl (confirmStep cfg env kiw) acc l).2.1 pid = mapGet acc.2.1 pid ∧
    ∀ a ∈ (List.foldl (confirmStep cfg env kiw) acc l).1, a ∈ acc.1 ∨ a.targetPid ≠ pid := by
  induction l with
  | nil =>
    intro acc _
    exact ⟨rfl, fun a ha => Or.inl ha⟩
  | cons e rest ih =>
    intro acc hpid
    rw [List.map_cons, List.mem_cons] at hpid
    push_neg at hpid
    have hne : pid ≠ e.1 := hpid.1
    rw [List.foldl_cons]
    rcases hm : mapGet acc.2.1 e.1 with _ | prev
    · rw [confirmStep_none cfg env kiw acc e hm]
      rcases ih _ hpid.2 with ⟨hg, hact⟩
      refine ⟨?_, hact⟩
      rw [hg]
      exact mapGet_mapSet_ne acc.2.1 e.1 pid _ hne
    · by_cases hr : prev.rule = e.2.rule
      · rw [confirmStep_confirmed cfg env kiw acc e prev hm hr]
        rcases ih _ hpid.2 with ⟨hg, hact⟩
        constructor
        · rw [hg]
          exact executeKill_get_ne cfg env acc.2.1 e.1 e.2.rule e.2.reason
            (kiw + countKilled acc.1) pid hne
        · intro a ha
          rcases hact a ha with h | h
          · rcases List.mem_append.mp h with h | h
            · exact Or.inl h
            · have haeq : a = (executeKill cfg env acc.2.1 e.1 e.2.rule e.2.reason
                  (kiw + countKilled acc.1)).action := by simpa using h
              right
              rw [haeq, executeKill_targetPid]
              exact fun hh => hne hh.symm
          · exact Or.inr h
      · rw [confirmStep_mismatch cfg env kiw acc e prev hm hr]
        rcases ih _ hpid.2 with ⟨hg, hact⟩
        refine ⟨?_, hact⟩
        rw [hg]
        exact mapGet_mapSet_ne acc.2.1 e.1 pid _ hne

theorem foldl_confirm_origin (cfg : ReaperConfig) (env : ReaperEnv) (kiw : Nat)
    (current : PidMap CandEntry) (cands0 : PidMap CandInfo) (l : List (Nat × CandEntry)) :
    ∀ (acc : List ReaperAction × PidMap CandInfo × List Nat),
    (List.map Prod.fst l).Nodup →
    (∀ e ∈ l, mapGet current e.1 = some e.2) →
    (∀ e ∈ l, mapGet acc.2.1 e.1 = mapGet cands0 e.1) →
    (∀ a ∈ acc.1, ∃ info prev, mapGet current a.targetPid = some info ∧
        mapGet cands0 a.targetPid = some prev ∧ prev.rule = info.rule ∧ a.rule = info.rule) →
    ∀ a ∈ (List.foldl (confirmStep cfg env kiw) acc l).1,
      ∃ info prev, mapGet current a.targetPid = some info ∧
        mapGet cands0 a.targetPid = some prev ∧ prev.rule = info.rule ∧ a.rule = info.rule := by
  induction l with
  | nil =>
    intro acc _ _ _ h4 a ha
    exact h4 a ha
  | cons e rest ih =>
    intro acc hnd hcur hagree h4 a ha
    rw [List.map_cons, List.nodup_cons] at hnd
    rw [List.foldl_cons] at ha
    have hcur2 : ∀ e2 ∈ rest, mapGet current e2.1 = some e2.2 :=
      fun e2 he2 => hcur e2 (List.mem_cons_of_mem _ he2)
    rcases hm : mapGet acc.2.1 e.1 with _ | prev
    · rw [confirmStep_none cfg env kiw acc e hm] at ha
      have hagree2 : ∀ e2 ∈ rest,
          mapGet (mapSet acc.2.1 e.1 ⟨e.2.rule, e.2.reason, env.now⟩) e2.1 =
            mapGet cands0 e2.1 := by
        intro e2 he2
        have hne : e2.1 ≠ e.1 := fun hh => hnd.1 (hh ▸ List.mem_map_of_mem Prod.fst he2)
        rw [mapGet_mapSet_ne _ _ _ _ hne]
        exact hagree e2 (List.mem_cons_of_mem _ he2)
      exact ih (acc.1, mapSet acc.2.1 e.1 ⟨e.2.rule, e.2.reason, env.now⟩, acc.2.2)
        hnd.2 hcur2 hagree2 h4 a ha
    · by_cases hr : prev.rule = e.2.rule
      · rw [confirmStep_confirmed cfg env kiw acc e prev hm hr] at ha
        have hagree2 : ∀ e2 ∈ rest,
            mapGet (executeKill cfg env acc.2.1 e.1 e.2.rule e.2.reason
              (kiw + countKilled acc.1)).candidates e2.1 = mapGet cands0 e2.1 := by
          intro e2 he2
          have hne : e2.1 ≠ e.1 := fun hh => hnd.1 (hh ▸ List.mem_map_of_mem Prod.fst he2)
          rw [executeKill_get_ne cfg env acc.2.1 e.1 e.2.rule e.2.reason
            (kiw + countKilled acc.1) e2.1 hne]
          exact hagree e2 (List.mem_cons_of_mem _ he2)
        have h42 : ∀ b ∈ acc.1 ++ [(executeKill cfg env acc.2.1 e.1 e.2.rule e.2.reason
            (kiw + countKilled acc.1)).action],
            ∃ info prev, mapGet current b.targetPid = some info ∧
              mapGet cands0 b.targetPid = some prev ∧ prev.rule = info.rule ∧
              b.rule = info.rule := by
          intro b hb
          rcases List.mem_append.mp hb with hb | hb
          · exact h4 b hb
          · have hbeq : b = (executeKill cfg env acc.2.1 e.1 e.2.rule e.2.reason
                (kiw + countKilled acc.1)).action := by simpa using hb
            refine ⟨e.2, prev, ?_, ?_, hr, ?_⟩
            · rw [hbeq, executeKill_targetPid]
              exact hcur e (List.mem_cons_self e rest)
            · rw [hbeq, executeKill_targetPid]
              rw [← hagree e (List.mem_cons_self e rest)]
              exact hm
            · rw [hbeq, executeKill_rule]
        exact ih (acc.1 ++ [(executeKill cfg env acc.2.1 e.1 e.2.rule e.2.reason
            (kiw + countKilled acc.1)).action],
          (executeKill cfg env acc.2.1 e.1 e.2.rule e.2.reason
            (kiw + countKilled acc.1)).candidates,
          acc.2.2 ++ (executeKill cfg env acc.2.1 e.1 e.2.rule e.2.reason
            (kiw + countKilled acc.1)).kills) hnd.2 hcur2 hagree2 h42 a ha
      · rw [confirmStep_mismatch cfg env kiw acc e prev hm hr] at ha
        have hagree2 : ∀ e2 ∈ rest,
            mapGet (mapSet acc.2.1 e.1 ⟨e.2.rule, e.2.reason, env.now⟩) e2.1 =
              mapGet cands0 e2.1 := by
          intro e2 he2
          have hne : e2.1 ≠ e.1 := fun hh => hnd.1 (hh ▸ List.mem_map_of_mem Prod.fst he2)
          rw [mapGet_mapSet_ne _ _ _ _ hne]
          exact hagree e2 (List.mem_cons_of_mem _ he2)
        exact ih (acc.1, mapSet acc.2.1 e.1 ⟨e.2.rule, e.2.reason, env.now⟩, acc.2.2)
          hnd.2 hcur2 hagree2 h4 a ha

theorem foldl_confirm_killed_gone (cfg : ReaperConfig) (env : ReaperEnv) (kiw : Nat)
    (l : List (Nat × CandEntry)) :
    ∀ (acc : List ReaperAction × PidMap CandInfo × List Nat),
    (List.map Prod.fst l).Nodup →
    (∀ a ∈ acc.1, a.targetPid ∉ List.map Prod.fst l) →
    (∀ a ∈ acc.1, (a.outcome = Outcome.killed ∨ a.outcome = Outcome.failed) →
        mapGet acc.2.1 a.targetPid = none) →
    ∀ a ∈ (List.foldl (confirmStep cfg env kiw) acc l).1,
      (a.outcome = Outcome.killed ∨ a.outcome = Outcome.failed) →
      mapGet (List.foldl (confirmStep cfg env kiw) acc l).2.1 a.targetPid = none := by
  induction l with
  | nil =>
    intro acc _ _ h3
    exact h3
  | cons e rest ih =>
    intro acc hnd hnotin h3
    rw [List.map_cons, List.nodup_cons] at hnd
    rw [List.foldl_cons]
    have hne0 : ∀ a ∈ acc.1, a.targetPid ≠ e.1 := by
      intro a ha hh
      exact hnotin a ha (by rw [List.map_cons, hh]; exact List.mem_cons_self _ _)
    have hnotin2 : ∀ a ∈ acc.1, a.targetPid ∉ List.map Prod.fst rest := by
      intro a ha hh
      exact hnotin a ha (by rw [List.map_cons]; exact List.mem_cons_of_mem _ hh)
    rcases hm : mapGet acc.2.1 e.1 with _ | prev
    · rw [confirmStep_none cfg env kiw acc e hm]
      refine ih _ hnd.2 hnotin2 ?_
      intro a ha hka
      rw [mapGet_mapSet_ne _ _ _ _ (hne0 a ha)]
      exact h3 a ha hka
    · by_cases hr : prev.rule = e.2.rule
      · rw [confirmStep_confirmed cfg env kiw acc e prev hm hr]
        refine ih _ hnd.2 ?_ ?_
        · intro a ha
          rcases List.mem_append.mp ha with ha | ha
          · exact hnotin2 a ha
          · have haeq : a = (executeKill cfg env acc.2.1 e.1 e.2.rule e.2.reason
                (kiw + countKilled acc.1)).action := by simpa using ha
            rw [haeq, executeKill_targetPid]
            exact hnd.1
        · intro a ha hka
          rcases List.mem_append.mp ha with ha | ha
          · rw [executeKill_get_ne cfg env acc.2.1 e.1 e.2.rule e.2.reason
              (kiw + countKilled acc.1) a.targetPid (hne0 a ha)]
            exact h3 a ha hka
          · have haeq : a = (executeKill cfg env acc.2.1 e.1 e.2.rule e.2.reason
                (kiw + countKilled acc.1)).action := by simpa using ha
            rw [haeq, executeKill_targetPid]
            rw [executeKill_killed_deleted cfg env acc.2.1 e.1 e.2.rule e.2.reason
              (kiw + countKilled acc.1) (haeq ▸ hka)]
            exact mapGet_mapDelete_self acc.2.1 e.1
      · rw [confirmStep_mismatch cfg env kiw acc e prev hm hr]
        refine ih _ hnd.2 hnotin2 ?_
        intro a ha hka
        rw [mapGet_mapSet_ne _ _ _ _ (hne0 a ha)]
        exact h3 a ha hka

theorem foldl_confirm_register (cfg : ReaperConfig) (env : ReaperEnv) (kiw : Nat)
    (cands0 : PidMap CandInfo) (l : List (Nat × CandEntry)) (pid : Nat) (info : CandEntry) :
    ∀ (acc : List ReaperAction × PidMap CandInfo × List Nat),
    (List.map Prod.fst l).Nodup →
    (pid, info) ∈ l →
    mapGet acc.2.1 pid = mapGet cands0 pid →
    (∀ prev, mapGet cands0 pid = some prev → ¬ (prev.rule = info.rule)) →
    (∀ a ∈ acc.1, a.targetPid ≠ pid) →
    mapGet (List.foldl (confirmStep cfg env kiw) acc l).2.1 pid =
      some ⟨info.rule, info.reason, env.now⟩ ∧
    ∀ a ∈ (List.foldl (confirmStep cfg env kiw) acc l).1, a.targetPid ≠ pid := by
  induction l with
  | nil =>
    intro acc _ hmem
    simp at hmem
  | cons e rest ih =>
    intro acc hnd hmem hagr hmis hacts
    rw [List.map_cons, List.nodup_cons] at hnd
    rw [List.foldl_cons]
    by_cases hpe : e.1 = pid
    · have he2 : e = (pid, info) := by
        rcases List.mem_cons.mp hmem with h | h
        · exact h.symm
        · exfalso
          apply hnd.1
          rw [hpe]
          exact List.mem_map_of_mem Prod.fst h
      subst he2
      have hrest : pid ∉ List.map Prod.fst rest := by
        simpa using hnd.1
      rcases hm : mapGet acc.2.1 (pid, info).1 with _ | prev
      · rw [confirmStep_none cfg env kiw acc (pid, info) hm]
        have hout := foldl_confirm_untouched cfg env kiw rest pid
          (acc.1, mapSet acc.2.1 (pid, info).1 ⟨(pid, info).2.rule, (pid, info).2.reason, env.now⟩,
            acc.2.2) hrest
        refine ⟨?_, ?_⟩
        · rw [hout.1]
          exact mapGet_mapSet_self acc.2.1 pid _
        · intro a ha
          rcases hout.2 a ha with h | h
          · exact hacts a h
          · exact h
      · have hc0 : mapGet cands0 pid = some prev := by
          rw [← hagr]
          exact hm
        have hr : ¬ (prev.rule = (pid, info).2.rule) := hmis prev hc0
        rw [confirmStep_mismatch cfg env kiw acc (pid, info) prev hm hr]
        have hout := foldl_confirm_untouched cfg env kiw rest pid
          (acc.1, mapSet acc.2.1 (pid, info).1 ⟨(pid, info).2.rule, (pid, info).2.reason, env.now⟩,
            acc.2.2) hrest
        refine ⟨?_, ?_⟩
        · rw [hout.1]
          exact mapGet_mapSet_self acc.2.1 pid _
        · intro a ha
          rcases hout.2 a ha with h | h
          · exact hacts a h
          · exact h
    · have hmem2 : (pid, info) ∈ rest := by
        rcases List.mem_cons.mp hmem with h | h
        · exfalso
          apply hpe
          rw [← h]
        · exact h
      have hpne : pid ≠ e.1 := fun hh => hpe hh.symm
      rcases hm : mapGet acc.2.1 e.1 with _ | prev
      · rw [confirmStep_none cfg env kiw acc e hm]
        refine ih _ hnd.2 hmem2 ?_ hmis hacts
        rw [mapGet_mapSet_ne _ _ _ _ hpne]
        exact hagr
      · by_cases hr : prev.rule = e.2.rule
        · rw [confirmStep_confirmed cfg env kiw acc e prev hm hr]
          refine ih _ hnd.2 hmem2 ?_ hmis ?_
          · rw [executeKill_get_ne cfg env acc.2.1 e.1 e.2.rule e.2.reason
              (kiw + countKilled acc.1) pid hpne]
            exact hagr
          · intro a ha
            rcases List.mem_append.mp ha with ha | ha
            · exact hacts a ha
            · have haeq : a = (executeKill cfg env acc.2.1 e.1 e.2.rule e.2.reason
                  (kiw + countKilled acc.1)).action := by simpa using ha
              rw [haeq, executeKill_targetPid]
              exact hpe
        · rw [confirmStep_mismatch cfg env kiw acc e prev hm hr]
          refine ih _ hnd.2 hmem2 ?_ hmis hacts
          rw [mapGet_mapSet_ne _ _ _ _ hpne]
          exact hagr

/-! ### Key uniqueness of the candidate map -/

theorem nodup_keys_foldl {β : Type} (f : PidMap CandEntry → β → PidMap CandEntry)
    (hf : ∀ m b, (mapKeys m).Nodup → (mapKeys (f m b)).Nodup) (l : List β) :
    ∀ m, (mapKeys m).Nodup → (mapKeys (List.foldl f m l)).Nodup := by
  induction l with
  | nil =>
    intro m hm
    exact hm
  | cons b rest ih =>
    intro m hm
    rw [List.foldl_cons]
    exact ih _ (hf m b hm)

theorem rule1_nodup (cfg : ReaperConfig) (env : ReaperEnv) (procs : List TrackedProcess)
    (m : PidMap CandEntry) (h : (mapKeys m).Nodup) :
    (mapKeys (rule1 cfg env procs m)).Nodup := by
  unfold rule1
  split
  · refine nodup_keys_foldl _ ?_ procs m h
    intro m2 proc hm2
    split
    · exact nodup_keys_mapSet _ _ _ hm2
    · exact hm2
  · exact h

theorem rule2_nodup (cfg : ReaperConfig) (snap : CudaSnapshot)
    (m : PidMap CandEntry) (h : (mapKeys m).Nodup) :
    (mapKeys (rule2 cfg snap m)).Nodup := by
  unfold rule2
  split
  · split
    · refine nodup_keys_foldl _ ?_ _ m h
      intro m2 hog hm2
      split
      · exact nodup_keys_mapSet _ _ _ hm2
      · exact hm2
    · exact h
  · exact h

theorem rule3_nodup (cfg : ReaperConfig) (env : ReaperEnv) (mbp : Option Nat)
    (m : PidMap CandEntry) (h : (mapKeys m).Nodup) :
    (mapKeys (rule3 cfg env mbp m)).Nodup := by
  unfold rule3
  split
  · split
    · split
      · exact nodup_keys_mapSet _ _ _ h
      · exact h
    · exact h
  · exact h

theorem rule4_nodup (cfg : ReaperConfig) (env : ReaperEnv) (procs : List TrackedProcess)
    (m : PidMap CandEntry) (h : (mapKeys m).Nodup) :
    (mapKeys (rule4 cfg env procs m)).Nodup := by
  unfold rule4
  split
  · refine nodup_keys_foldl _ ?_ procs m h
    intro m2 proc hm2
    split
    · exact nodup_keys_mapSet _ _ _ hm2
    · exact hm2
  · exact h

theorem rule5_nodup (cfg : ReaperConfig) (procs : List TrackedProcess) (snap : CudaSnapshot)
    (m : PidMap CandEntry) (h : (mapKeys m).Nodup) :
    (mapKeys (rule5 cfg procs snap m)).Nodup := by
  unfold rule5
  split
  · refine nodup_keys_foldl _ ?_ _ m h
    intro m2 gpuProc hm2
    split
    · split
      · split
        · exact nodup_keys_mapSet _ _ _ hm2
        · exact hm2
      · exact hm2
    · exact hm2
  · exact h

theorem computeCandidates_nodup (cfg : ReaperConfig) (env : ReaperEnv)
    (procs : List TrackedProcess) (snap : CudaSnapshot) (mbp : Option Nat) :
    (mapKeys (computeCandidates cfg env procs snap mbp)).Nodup := by
  unfold computeCandidates
  apply rule5_nodup
  apply rule4_nodup
  apply rule3_nodup
  apply rule2_nodup
  apply rule1_nodup
  simp [mapKeys]

/-! ### Unfolding lemmas for `evaluate` -/

theorem evaluate_enabled (st : ReaperState) (env : ReaperEnv)
    (procs : List TrackedProcess) (snap : CudaSnapshot) (mbp : Option Nat)
    (h : st.config.enabled = true) :
    evaluate st env procs snap mbp =
      { actions := (runConfirm st.config env (getKillsInWindow st.actionLog st.config env.now)
          (computeCandidates st.config env procs snap mbp) st.candidates).1
        state := { config := st.config
                   actionLog := trimLog (st.actionLog ++ (runConfirm st.config env
                     (getKillsInWindow st.actionLog st.config env.now)
                     (computeCandidates st.config env procs snap mbp) st.candidates).1)
                   candidates := ((runConfirm st.config env
                     (getKillsInWindow st.actionLog st.config env.now)
                     (computeCandidates st.config env procs snap mbp) st.candidates).2.1).filter
                       (fun e =>
                         (mapGet (computeCandidates st.config env procs snap mbp) e.1).isSome) }
        kills := (runConfirm st.config env (getKillsInWindow st.actionLog st.config env.now)
          (computeCandidates st.config env procs snap mbp) st.candidates).2.2 } := by
  unfold evaluate
  rw [if_pos h]

theorem evaluate_not_enabled (st : ReaperState) (env : ReaperEnv)
    (procs : List TrackedProcess) (snap : CudaSnapshot) (mbp : Option Nat)
    (h : st.config.enabled = false) :
    evaluate st env procs snap mbp = { actions := [], state := st, kills := [] } := by
  unfold evaluate
  rw [if_neg (by simp [h])]

/-! ### Lemmas about the Process Tracker CPU computation -/

theorem computeCpuPercent_le_100 (prev : Option CpuSample) (cpuSeconds : Rat) (now : Nat) :
    computeCpuPercent prev cpuSeconds now ≤ 100 := by
  rcases prev with _ | p
  · simp [computeCpuPercent]
  · simp only [computeCpuPercent]
    split
    · exact min_le_left _ _
    · norm_num

theorem computeCpuPercent_nonneg (p : CpuSample) (cpuSeconds : Rat) (now : Nat)
    (h : p.cpuSeconds ≤ cpuSeconds) :
    0 ≤ computeCpuPercent (some p) cpuSeconds now := by
  simp only [computeCpuPercent]
  split
  case isTrue hdt =>
    apply le_min
    · norm_num
    · have hx : 0 ≤ (cpuSeconds - p.cpuSeconds) /
          (((now : Rat) - (p.timestamp : Rat)) / 1000) * 100 := by
        apply mul_nonneg
        · exact div_nonneg (sub_nonneg.mpr h) (le_of_lt hdt)
        · norm_num
      unfold jsRound
      apply Rat.le_floor.mpr
      push_cast
      linarith
  case isFalse => norm_num

theorem scanStep_mem (managed : List Nat) (gmap : PidMap Nat) (alive : List Nat) (now : Nat)
    (acc : List TrackedProcess × PidMap CpuSample × PidMap Nat) (raw : RawProcessInfo) :
    ∀ tp ∈ (scanStep managed gmap alive now acc raw).1,
      tp ∈ acc.1 ∨
        tp.cpuPercent = computeCpuPercent (mapGet acc.2.1 raw.pid) raw.cpuSeconds now := by
  intro tp htp
  simp only [scanStep, List.mem_append, List.mem_singleton] at htp
  rcases htp with h | h
  · exact Or.inl h
  · right
    rw [h]

theorem foldl_scan_cpu_le (managed : List Nat) (gmap : PidMap Nat) (alive : List Nat)
    (now : Nat) (raws : List RawProcessInfo) :
    ∀ (acc : List TrackedProcess × PidMap CpuSample × PidMap Nat),
    (∀ tp ∈ acc.1, tp.cpuPercent ≤ 100) →
    ∀ tp ∈ (List.foldl (scanStep managed gmap alive now) acc raws).1, tp.cpuPercent ≤ 100 := by
  induction raws with
  | nil =>
    intro acc h
    exact h
  | cons raw rest ih =>
    intro acc h
    rw [List.foldl_cons]
    apply ih
    intro tp htp
    rcases scanStep_mem managed gmap alive now acc raw tp htp with h2 | h2
    · exact h tp h2
    · rw [h2]
      exact computeCpuPercent_le_100 _ _ _

theorem scanProcesses_cpu_le (st : TrackerState) (raws : List RawProcessInfo)
    (gmap : PidMap Nat) (now : Nat) :
    ∀ tp ∈ (scanProcesses st raws gmap now).procs, tp.cpuPercent ≤ 100 := by
  intro tp htp
  simp only [scanProcesses] at htp
  exact foldl_scan_cpu_le st.managedPids gmap (raws.map (fun r => r.pid)) now raws
    ([], st.lastCpuSnapshot, st.staleCycles) (by intro tp2 h2; simp at h2) tp htp

/-! ### Lemmas about the CUDA Monitor alert blocks -/

theorem mem_overBudgetAlerts (b : Nat) (g : GpuInfo) (n : Nat) :
    ∀ a ∈ overBudgetAlerts b g n, a.type = AlertType.overBudget := by
  intro a ha
  unfold overBudgetAlerts at ha
  split at ha
  · have := List.mem_singleton.mp ha
    rw [this]
  · simp at ha

theorem mem_thermalAlerts (g : GpuInfo) (n : Nat) :
    ∀ a ∈ thermalAlerts g n, a.type = AlertType.thermal := by
  intro a ha
  unfold thermalAlerts at ha
  split at ha
  · have := List.mem_singleton.mp ha
    rw [this]
  · split at ha
    · have := List.mem_singleton.mp ha
      rw [this]
    · simp at ha

theorem mem_unmanagedAlerts (procs : List GpuProcess) (n : Nat) :
    ∀ a ∈ unmanagedAlerts procs n, a.type = AlertType.unmanagedProcess := by
  intro a ha
  unfold unmanagedAlerts at ha
  rcases List.mem_map.mp ha with ⟨p, _, hpa⟩
  rw [← hpa]

theorem mem_leakAlerts (ps : Option CudaSnapshot) (g : GpuInfo) (procs : List GpuProcess)
    (n : Nat) :
    ∀ a ∈ leakAlerts ps g procs n,
      a.type = AlertType.vramLeak ∧ a.severity = Severity.warning ∧
      ∃ prev prevGpu, ps = some prev ∧ prev.gpu = some prevGpu ∧
        (g.memoryUsedMb : Int) - (prevGpu.memoryUsedMb : Int) > 500 ∧
        (procs.filter (fun p => p.isManaged)).length = 0 := by
  intro a ha
  rcases ps with _ | prev
  · simp [leakAlerts] at ha
  · rw [show leakAlerts (some prev) g procs n = leakAlertsAux prev.gpu g procs n from rfl] at ha
    rcases hgp : prev.gpu with _ | pg
    · rw [hgp] at ha
      simp [leakAlertsAux] at ha
    · rw [hgp] at ha
      simp only [leakAlertsAux] at ha
      split at ha
      case isTrue hc =>
        have := List.mem_singleton.mp ha
        rw [this]
        exact ⟨rfl, rfl, prev, pg, rfl, hgp, hc.1, hc.2⟩
      case isFalse => simp at ha

theorem leakAlerts_pos (prev : CudaSnapshot) (pg : GpuInfo) (g : GpuInfo)
    (procs : List GpuProcess) (n : Nat) (hgp : prev.gpu = some pg)
    (hd : (g.memoryUsedMb : Int) - (pg.memoryUsedMb : Int) > 500)
    (hm : (procs.filter (fun p => p.isManaged)).length = 0) :
    leakAlerts (some prev) g procs n =
      [⟨AlertType.vramLeak, Severity.warning,
        "VRAM grew by " ++ toString ((g.memoryUsedMb : Int) - (pg.memoryUsedMb : Int)) ++
          " MB with no managed processes on GPU. Possible leak.", none, n⟩] := by
  rw [show leakAlerts (some prev) g procs n = leakAlertsAux prev.gpu g procs n from rfl, hgp]
  simp only [leakAlertsAux]
  rw [if_pos ⟨hd, hm⟩]

/-! ### Evaluate-level helper theorems -/

theorem mapGet_prune {α β : Type} (m : PidMap α) (current : PidMap β) (k : Nat) :
    mapGet (m.filter (fun e => (mapGet current e.1).isSome)) k =
      if (mapGet current k).isSome then mapGet m k else none :=
  mapGet_filter_key (fun q => (mapGet current q).isSome) m k

theorem evaluate_actions_origin (st : ReaperState) (env : ReaperEnv)
    (procs : List TrackedProcess) (snap : CudaSnapshot) (mbp : Option Nat) :
    ∀ a ∈ (evaluate st env procs snap mbp).actions,
      ∃ info prev,
        mapGet (computeCandidates st.config env procs snap mbp) a.targetPid = some info ∧
        mapGet st.candidates a.targetPid = some prev ∧
        prev.rule = info.rule ∧ a.rule = info.rule := by
  intro a ha
  by_cases hen : st.config.enabled = true
  · rw [evaluate_enabled st env procs snap mbp hen] at ha
    have hnd := computeCandidates_nodup st.config env procs snap mbp
    exact foldl_confirm_origin st.config env
      (getKillsInWindow st.actionLog st.config env.now)
      (computeCandidates st.config env procs snap mbp) st.candidates
      (computeCandidates st.config env procs snap mbp)
      ([], st.candidates, []) hnd
      (fun e he => nodup_mapGet_of_mem _ e.1 e.2 hnd he)
      (fun e _ => rfl)
      (by intro b hb; simp at hb)
      a ha
  · have hen2 : st.config.enabled = false := by
      cases hb : st.config.enabled
      · rfl
      · exact absurd hb hen
    rw [evaluate_not_enabled st env procs snap mbp hen2] at ha
    simp at ha

theorem evaluate_unflagged (st : ReaperState) (env : ReaperEnv)
    (procs : List TrackedProcess) (snap : CudaSnapshot) (mbp : Option Nat) (pid : Nat)
    (hen : st.config.enabled = true)
    (hnone : mapGet (computeCandidates st.config env procs snap mbp) pid = none) :
    mapGet (evaluate st env procs snap mbp).state.candidates pid = none ∧
    ∀ a ∈ (evaluate st env procs snap mbp).actions, a.targetPid ≠ pid := by
  rw [evaluate_enabled st env procs snap mbp hen]
  have hnotin : pid ∉ List.map Prod.fst (computeCandidates st.config env procs snap mbp) :=
    (mapGet_eq_none_iff _ pid).mp hnone
  have hout := foldl_confirm_untouched st.config env
    (getKillsInWindow st.actionLog st.config env.now)
    (computeCandidates st.config env procs snap mbp) pid
    ([], st.candidates, []) hnotin
  constructor
  · show mapGet (List.filter _ _) pid = none
    rw [mapGet_prune]
    rw [hnone]
    simp
  · intro a ha
    rcases hout.2 a ha with h | h
    · simp at h
    · exact h

theorem evaluate_register (st : ReaperState) (env : ReaperEnv)
    (procs : List TrackedProcess) (snap : CudaSnapshot) (mbp : Option Nat)
    (pid : Nat) (info : CandEntry)
    (hen : st.config.enabled = true)
    (hsome : mapGet (computeCandidates st.config env procs snap mbp) pid = some info)
    (hmis : ∀ prev, mapGet st.candidates pid = some prev → ¬ (prev.rule = info.rule)) :
    mapGet (evaluate st env procs snap mbp).state.candidates pid =
      some ⟨info.rule, info.reason, env.now⟩ ∧
    ∀ a ∈ (evaluate st env procs snap mbp).actions, a.targetPid ≠ pid := by
  rw [evaluate_enabled st env procs snap mbp hen]
  have hnd := computeCandidates_nodup st.config env procs snap mbp
  have hreg := foldl_confirm_register st.config env
    (getKillsInWindow st.actionLog st.config env.now) st.candidates
    (computeCandidates st.config env procs snap mbp) pid info
    ([], st.candidates, []) hnd (mapGet_mem _ pid info hsome) rfl hmis
    (by intro a ha; simp at ha)
  constructor
  · show mapGet (List.filter _ _) pid = some ⟨info.rule, info.reason, env.now⟩
    rw [mapGet_prune]
    rw [hsome]
    simp only [Option.isSome_some, if_true]
    exact hreg.1
  · exact hreg.2

theorem evaluate_killed_gone (st : ReaperState) (env : ReaperEnv)
    (procs : List TrackedProcess) (snap : CudaSnapshot) (mbp : Option Nat) :
    ∀ a ∈ (evaluate st env procs snap mbp).actions,
      (a.outcome = Outcome.killed ∨ a.outcome = Outcome.failed) →
      mapGet (evaluate st env procs snap mbp).state.candidates a.targetPid = none := by
  intro a ha hka
  by_cases hen : st.config.enabled = true
  · rw [evaluate_enabled st env procs snap mbp hen] at ha ⊢
    have hnd := computeCandidates_nodup st.config env procs snap mbp
    have hgone := foldl_confirm_killed_gone st.config env
      (getKillsInWindow st.actionLog st.config env.now)
      (computeCandidates st.config env procs snap mbp)
      ([], st.candidates, []) hnd
      (by intro b hb; simp at hb)
      (by intro b hb; simp at hb)
      a ha hka
    show mapGet (List.filter _ _) a.targetPid = none
    rw [mapGet_prune]
    split
    · exact hgone
    · rfl
  · have hen2 : st.config.enabled = false := by
      cases hb : st.config.enabled
      · rfl
      · exact absurd hb hen
    rw [evaluate_not_enabled st env procs snap mbp hen2] at ha
    simp at ha

theorem evaluate_state_config (st : ReaperState) (env : ReaperEnv)
    (procs : List TrackedProcess) (snap : CudaSnapshot) (mbp : Option Nat) :
    (evaluate st env procs snap mbp).state.config = st.config := by
  by_cases hen : st.config.enabled = true
  · rw [evaluate_enabled st env procs snap mbp hen]
  · have hen2 : st.config.enabled = false := by
      cases hb : st.config.enabled
      · rfl
      · exact absurd hb hen
    rw [evaluate_not_enabled st env procs snap mbp hen2]

/-! ### Claim theorems -/

/-- C1: if a PID is in the ManagedPidRegistry when the Reaper's
kill-execution path runs, every action the evaluation cycle produces for it
has outcome skipped-safety (never killed), and the termination capability is
never invoked on it — across every rule and every cycle. -/
theorem reaper_never_kills_managed (st : ReaperState) (env : ReaperEnv)
    (procs : List TrackedProcess) (snap : CudaSnapshot) (mbp : Option Nat) (pid : Nat)
    (hman : isManagedPid env pid = true) :
    (∀ a ∈ (evaluate st env procs snap mbp).actions,
      a.targetPid = pid → a.outcome = Outcome.skippedSafety) ∧
    pid ∉ (evaluate st env procs snap mbp).kills := by
  by_cases hen : st.config.enabled = true
  · rw [evaluate_enabled st env procs snap mbp hen]
    have h := foldl_confirm_managed st.config env
      (getKillsInWindow st.actionLog st.config env.now)
      (computeCandidates st.config env procs snap mbp)
      ([], st.candidates, [])
      (by intro a ha; simp at ha) (by intro p hp; simp at hp)
    constructor
    · intro a ha htgt
      exact h.1 a ha (htgt ▸ hman)
    · intro hk
      have hfalse := h.2 pid hk
      rw [hman] at hfalse
      exact Bool.noConfusion hfalse
  · have hen2 : st.config.enabled = false := by
      cases hb : st.config.enabled
      · rfl
      · exact absurd hb hen
    rw [evaluate_not_enabled st env procs snap mbp hen2]
    exact ⟨by intro a ha; simp at ha, by simp⟩

/-- Witness for C1: PID 42 is managed while still flagged by the
duplicate-model rule (it was stamped unmanaged at snapshot time); the
confirmed candidate yields a skipped-safety action and no kill call. -/
theorem reaper_never_kills_managed_witness :
    isManagedPid (c1Env 2000) 42 = true ∧
    (evaluate c1St1 (c1Env 2000) [] c1Snap none).actions ≠ [] ∧
    (∀ a ∈ (evaluate c1St1 (c1Env 2000) [] c1Snap none).actions,
      a.targetPid = 42 → a.outcome = Outcome.skippedSafety) ∧
    42 ∉ (evaluate c1St1 (c1Env 2000) [] c1Snap none).kills := by
  have h := reaper_never_kills_managed c1St1 (c1Env 2000) [] c1Snap none 42 (by decide)
  exact ⟨by decide, by decide, h.1, h.2⟩

/-- C2: a kill attempt (an action of any outcome) is executed against a PID
only when the PID is flagged this cycle and was registered under the same
rule in the previous cycle; a flagged-once PID that is not re-flagged is
pruned from the candidate map and produces zero actions; a PID re-flagged
under a different rule has its old candidacy replaced by a fresh first-seen
entry and produces zero actions. -/
theorem reaper_two_cycle_confirmation (st : ReaperState) (env : ReaperEnv)
    (procs : List TrackedProcess) (snap : CudaSnapshot) (mbp : Option Nat) :
    (∀ a ∈ (evaluate st env procs snap mbp).actions,
      ∃ info prev,
        mapGet (computeCandidates st.config env procs snap mbp) a.targetPid = some info ∧
        mapGet st.candidates a.targetPid = some prev ∧
        prev.rule = info.rule ∧ a.rule = info.rule) ∧
    (∀ pid, st.config.enabled = true →
      mapGet (computeCandidates st.config env procs snap mbp) pid = none →
      mapGet (evaluate st env procs snap mbp).state.candidates pid = none ∧
      ∀ a ∈ (evaluate st env procs snap mbp).actions, a.targetPid ≠ pid) ∧
    (∀ pid info, st.config.enabled = true →
      mapGet (computeCandidates st.config env procs snap mbp) pid = some info →
      (∀ prev, mapGet st.candidates pid = some prev → ¬ (prev.rule = info.rule)) →
      mapGet (evaluate st env procs snap mbp).state.candidates pid =
        some ⟨info.rule, info.reason, env.now⟩ ∧
      ∀ a ∈ (evaluate st env procs snap mbp).actions, a.targetPid ≠ pid) :=
  ⟨evaluate_actions_origin st env procs snap mbp,
   fun pid hen hnone => evaluate_unflagged st env procs snap mbp pid hen hnone,
   fun pid info hen hsome hmis => evaluate_register st env procs snap mbp pid info hen hsome hmis⟩

/-- Witness for C2: PID 55 carries a stale candidacy but is not re-flagged,
so it is pruned with no action; PID 77 is flagged for the first time, so it
is registered with a fresh firstSeenAt and produces no action. -/
theorem reaper_two_cycle_confirmation_witness :
    (mapGet (computeCandidates c2St.config (c2Env 1000) [c2Proc] c2Snap none) 55 = none) ∧
    (mapGet (evaluate c2St (c2Env 1000) [c2Proc] c2Snap none).state.candidates 55 = none) ∧
    (∀ a ∈ (evaluate c2St (c2Env 1000) [c2Proc] c2Snap none).actions, a.targetPid ≠ 55) ∧
    (mapGet (evaluate c2St (c2Env 1000) [c2Proc] c2Snap none).state.candidates 77 =
      some ⟨ReaperRuleName.orphanKill, orphanReason c2Proc, 1000⟩) ∧
    (∀ a ∈ (evaluate c2St (c2Env 1000) [c2Proc] c2Snap none).actions, a.targetPid ≠ 77) := by
  have h := reaper_two_cycle_confirmation c2St (c2Env 1000) [c2Proc] c2Snap none
  have h2 := h.2.1 55 (by decide) (by decide)
  have h3 := h.2.2 77 ⟨ReaperRuleName.orphanKill, orphanReason c2Proc⟩ (by decide) (by decide)
    (by
      intro prev hprev
      rw [show mapGet c2St.candidates 77 = none from by decide] at hprev
      exact Option.noConfusion hprev)
  exact ⟨by decide, h2.1, h2.2, h3.1, h3.2⟩

/-- C10: with the Reaper disabled, `evaluate` returns no actions and leaves
the whole module state (config, candidate map, action log) unchanged, and
invokes no kill. -/
theorem evaluate_disabled_frame (st : ReaperState) (env : ReaperEnv)
    (procs : List TrackedProcess) (snap : CudaSnapshot) (mbp : Option Nat)
    (h : st.config.enabled = false) :
    evaluate st env procs snap mbp = { actions := [], state := st, kills := [] } :=
  evaluate_not_enabled st env procs snap mbp h

/-- Witness for C10: a disabled state with a pending candidate and a log
entry is returned untouched. -/
theorem evaluate_disabled_frame_witness :
    c10St.config.enabled = false ∧
    evaluate c10St c10Env [c10Proc] c10Snap none =
      { actions := [], state := c10St, kills := [] } :=
  ⟨by decide, evaluate_disabled_frame c10St c10Env [c10Proc] c10Snap none (by decide)⟩

/-- C5 counterexample: with `dryRun = true` and a confirmed candidate, the
recorded outcome is skipped-safety (the circuit breaker runs before the
dry-run check), refuting the claim that every confirmed candidate is
recorded with outcome dry-run. -/
theorem dry_run_outcome_counterexample :
    c5St0.config.dryRun = true ∧
    c5Cyc2.actions.map (fun a => (a.targetPid, a.outcome)) =
      [(42, Outcome.skippedSafety)] := by decide

/-- C5 as amended: with `dryRun = true` no kill signal is ever sent and
every recorded outcome is dry-run or skipped-safety; a confirmed candidate
that passes the circuit breaker and the managed-registry check is recorded
as dry-run; every action is appended to the (trimmed) log. -/
theorem dry_run_no_kill_invocation (st : ReaperState) (env : ReaperEnv)
    (procs : List TrackedProcess) (snap : CudaSnapshot) (mbp : Option Nat)
    (hd : st.config.dryRun = true) :
    (evaluate st env procs snap mbp).kills = [] ∧
    (∀ a ∈ (evaluate st env procs snap mbp).actions,
      a.outcome = Outcome.dryRun ∨ a.outcome = Outcome.skippedSafety) ∧
    (∀ a ∈ (evaluate st env procs snap mbp).actions,
      getKillsInWindow st.actionLog st.config env.now < st.config.maxKillsPerWindow →
      isManagedPid env a.targetPid = false → a.outcome = Outcome.dryRun) ∧
    (st.config.enabled = true →
      (evaluate st env procs snap mbp).state.actionLog =
        trimLog (st.actionLog ++ (evaluate st env procs snap mbp).actions)) := by
  by_cases hen : st.config.enabled = true
  · rw [evaluate_enabled st env procs snap mbp hen]
    have h := foldl_confirm_dryRun st.config env
      (getKillsInWindow st.actionLog st.config env.now) hd
      (computeCandidates st.config env procs snap mbp)
      ([], st.candidates, [])
      (by intro a ha; simp at ha) rfl
    exact ⟨h.2, fun a ha => (h.1 a ha).1, fun a ha => (h.1 a ha).2, fun _ => rfl⟩
  · have hen2 : st.config.enabled = false := by
      cases hb : st.config.enabled
      · rfl
      · exact absurd hb hen
    rw [evaluate_not_enabled st env procs snap mbp hen2]
    refine ⟨rfl, by intro a ha; simp at ha, by intro a ha; simp at ha, ?_⟩
    intro htrue
    rw [hen2] at htrue
    exact Bool.noConfusion htrue

/-- Witness for C5 (amended): a dry-run cycle with budget available and a
confirmed unmanaged candidate sends no signal and logs a dry-run action. -/
theorem dry_run_no_kill_invocation_witness :
    c5WSt1.config.dryRun = true ∧
    (evaluate c5WSt1 (c5Env 2000) [c5Proc] c5Snap none).actions ≠ [] ∧
    (evaluate c5WSt1 (c5Env 2000) [c5Proc] c5Snap none).kills = [] ∧
    (∀ a ∈ (evaluate c5WSt1 (c5Env 2000) [c5Proc] c5Snap none).actions,
      a.outcome = Outcome.dryRun ∨ a.outcome = Outcome.skippedSafety) ∧
    (∀ a ∈ (evaluate c5WSt1 (c5Env 2000) [c5Proc] c5Snap none).actions,
      getKillsInWindow c5WSt1.actionLog c5WSt1.config 2000 < c5WSt1.config.maxKillsPerWindow →
      isManagedPid (c5Env 2000) a.targetPid = false → a.outcome = Outcome.dryRun) := by
  have h := dry_run_no_kill_invocation c5WSt1 (c5Env 2000) [c5Proc] c5Snap none (by decide)
  exact ⟨by decide, by decide, h.1, h.2.1, h.2.2.1⟩

/-- C6 counterexample: with unchanged snapshots, PID 42 is killed in cycle
2, emits no action in cycle 3, and is killed again in cycle 4 — repeated
evaluation does produce further actions (and kills) for an
already-acted-upon PID. -/
theorem evaluate_idempotence_counterexample :
    c6Cyc2.actions.map (fun a => (a.targetPid, a.outcome)) = [(42, Outcome.killed)] ∧
    c6Cyc3.actions = [] ∧
    c6Cyc4.actions.map (fun a => (a.targetPid, a.outcome)) = [(42, Outcome.killed)] := by
  decide

/-- C6 as amended: after a cycle in which a PID was actually acted upon
(outcome killed or failed), its candidacy is dropped and the immediately
following evaluation over the same snapshots emits no action for it (it
restarts as first-seen); a PID never flagged produces no actions at all.
A still-anomalous PID is however re-confirmed and acted upon again every
second cycle. -/
theorem evaluate_steady_state (st : ReaperState) (env : ReaperEnv)
    (procs : List TrackedProcess) (snap : CudaSnapshot) (mbp : Option Nat) (env2 : ReaperEnv) :
    (∀ a ∈ (evaluate st env procs snap mbp).actions,
      (a.outcome = Outcome.killed ∨ a.outcome = Outcome.failed) →
      mapGet (evaluate st env procs snap mbp).state.candidates a.targetPid = none ∧
      ∀ b ∈ (evaluate (evaluate st env procs snap mbp).state env2 procs snap mbp).actions,
        b.targetPid ≠ a.targetPid) ∧
    (∀ pid, mapGet (computeCandidates st.config env procs snap mbp) pid = none →
      ∀ a ∈ (evaluate st env procs snap mbp).actions, a.targetPid ≠ pid) := by
  constructor
  · intro a ha hka
    have hgone := evaluate_killed_gone st env procs snap mbp a ha hka
    refine ⟨hgone, ?_⟩
    intro b hb htgt
    have horig := evaluate_actions_origin (evaluate st env procs snap mbp).state env2
      procs snap mbp b hb
    rcases horig with ⟨info, prev, _, hprev, _, _⟩
    rw [htgt, hgone] at hprev
    exact Option.noConfusion hprev
  · intro pid hnone a ha htgt
    have horig := evaluate_actions_origin st env procs snap mbp a ha
    rcases horig with ⟨info, prev, hinfo, _, _, _⟩
    rw [htgt, hnone] at hinfo
    exact Option.noConfusion hinfo

/-- Witness for C6 (amended): after the cycle that kills PID 42, its
candidate entry is gone and the next cycle over the same snapshots emits no
action for it. -/
theorem evaluate_steady_state_witness :
    (⟨2000, 42, ReaperRuleName.orphanKill, orphanReason c6Proc, Outcome.killed, none⟩ :
        ReaperAction) ∈ (evaluate c6Cyc1.state (c6Env 2000) [c6Proc] c6Snap none).actions ∧
    mapGet (evaluate c6Cyc1.state (c6Env 2000) [c6Proc] c6Snap none).state.candidates 42 =
      none ∧
    ∀ b ∈ (evaluate (evaluate c6Cyc1.state (c6Env 2000) [c6Proc] c6Snap none).state
        (c6Env 3000) [c6Proc] c6Snap none).actions, b.targetPid ≠ 42 := by
  have h := (evaluate_steady_state c6Cyc1.state (c6Env 2000) [c6Proc] c6Snap none
    (c6Env 3000)).1
    ⟨2000, 42, ReaperRuleName.orphanKill, orphanReason c6Proc, Outcome.killed, none⟩
    (by decide) (Or.inl rfl)
  exact ⟨by decide, h.1, h.2⟩

/-- C3 (evaluation at the failing input): an unmanaged process observed with
a dead parent on two consecutive scans is reported healthy both times and
its debounce counter is empty afterwards — the final counter reset in
`determineHealth` erases the count whenever no early return fired, so the
zombie status is never produced. -/
theorem zombie_debounce_never_fires :
    c3Scan1.procs.map (fun tp => tp.status) = [ProcessHealth.healthy] ∧
    c3Scan2.procs.map (fun tp => tp.status) = [ProcessHealth.healthy] ∧
    c3Scan2.state.staleCycles = [] := by decide

set_option maxRecDepth 100000 in
set_option maxHeartbeats 1000000 in
/-- C4 (evaluation at the failing input): under the default configuration
(maxKillsPerWindow = 3, windowMs = 300000), six killed actions are produced
10 seconds apart inside a single rolling 300000 ms window — 104 confirmed
candidates in one cycle push 104 actions into the log, the 100-entry trim
evicts the three killed entries, and `getKillsInWindow` then reports zero
kills. -/
theorem rate_limit_window_violation :
    DEFAULT_REAPER_CONFIG.maxKillsPerWindow = 3 ∧
    ((c4Cyc0.actions ++ c4Cyc1.actions ++ c4Cyc2.actions).filter (fun a =>
      decide ((a.timestamp : Int) > (12000 : Int) - (300000 : Int) ∧
        a.outcome = Outcome.killed))).length = 6 := by decide

attribute [local semireducible] Rat.sub Rat.mul Rat.add Rat.inv

/-- C7 counterexample: a CPU-time sample that decreases between two scans
(10 s to 5 s over one second of wall time) yields a reported cpuPercent of
-500 — the code only clamps from above, so the value is negative,
contradicting the claim that cpuPercent is clamped to the interval
from 0 to 100 and never negative. -/
theorem cpu_percent_negative_counterexample :
    c7Scan2.procs.map (fun tp => tp.cpuPercent) = [-500] ∧ (-500 : Int) < 0 := by decide

/-- C7 as amended: the cpuPercent reported by scanProcesses never exceeds
100 (the code clamps with Math.min(100, round(delta / dt * 100))), and it is
nonnegative whenever the CPU-time sample did not decrease; there is no lower
clamp, so a decreasing sample may produce a negative value. -/
theorem cpu_percent_clamped_above (st : TrackerState) (raws : List RawProcessInfo)
    (gmap : PidMap Nat) (now : Nat) :
    (∀ tp ∈ (scanProcesses st raws gmap now).procs, tp.cpuPercent ≤ 100) ∧
    (∀ (p : CpuSample) (cpu : Rat) (t : Nat), p.cpuSeconds ≤ cpu →
      0 ≤ computeCpuPercent (some p) cpu t) :=
  ⟨scanProcesses_cpu_le st raws gmap now,
   fun p cpu t h => computeCpuPercent_nonneg p cpu t h⟩

/-- Witness for C7 (amended), at the concrete second scan and a concrete
non-decreasing sample. -/
theorem cpu_percent_clamped_above_witness :
    (∀ tp ∈ c7Scan2.procs, tp.cpuPercent ≤ 100) ∧
    0 ≤ computeCpuPercent (some ⟨10, 1000⟩) 12 2000 := by
  have h := cpu_percent_clamped_above c7Scan1.state [c7Raw2] ([] : PidMap Nat) 2000
  exact ⟨h.1, h.2 ⟨10, 1000⟩ 12 2000 (by norm_num)⟩

/-- C8: the resource poll emits a vram-leak alert exactly when current GPU
data exists, a previous snapshot with GPU data exists, used memory grew by
more than 500 MB, and zero managed processes are GPU-resident; every
vram-leak alert carries severity warning. -/
theorem vram_leak_alert_iff (budget : Nat) (prevSnap : Option CudaSnapshot)
    (gpu : Option GpuInfo) (procs : List GpuProcess) (now : Nat) :
    ((∃ a ∈ generateAlerts budget prevSnap gpu procs now, a.type = AlertType.vramLeak) ↔
      ∃ g prev prevGpu, gpu = some g ∧ prevSnap = some prev ∧ prev.gpu = some prevGpu ∧
        (g.memoryUsedMb : Int) - (prevGpu.memoryUsedMb : Int) > 500 ∧
        (procs.filter (fun p => p.isManaged)).length = 0) ∧
    (∀ a ∈ generateAlerts budget prevSnap gpu procs now,
      a.type = AlertType.vramLeak → a.severity = Severity.warning) := by
  rcases gpu with _ | g
  · constructor
    · constructor
      · rintro ⟨a, ha, _⟩
        simp [generateAlerts] at ha
      · rintro ⟨g, prev, pg, hg, _⟩
        exact Option.noConfusion hg
    · intro a ha
      simp [generateAlerts] at ha
  · constructor
    · constructor
      · rintro ⟨a, ha, hty⟩
        have ha2 : a ∈ overBudgetAlerts budget g now ++ thermalAlerts g now ++
            unmanagedAlerts procs now ++ leakAlerts prevSnap g procs now := ha
        rcases List.mem_append.mp ha2 with h123 | h4
        · rcases List.mem_append.mp h123 with h12 | h3
          · rcases List.mem_append.mp h12 with h1 | h2
            · rw [mem_overBudgetAlerts budget g now a h1] at hty
              exact absurd hty (by simp)
            · rw [mem_thermalAlerts g now a h2] at hty
              exact absurd hty (by simp)
          · rw [mem_unmanagedAlerts procs now a h3] at hty
            exact absurd hty (by simp)
        · have hleak := mem_leakAlerts prevSnap g procs now a h4
          rcases hleak.2.2 with ⟨prev, pg, hps, hpg, hd, hm⟩
          exact ⟨g, prev, pg, rfl, hps, hpg, hd, hm⟩
      · rintro ⟨g2, prev, pg, hg, hps, hpg, hd, hm⟩
        obtain rfl : g = g2 := Option.some.inj hg
        subst hps
        refine ⟨⟨AlertType.vramLeak, Severity.warning,
          "VRAM grew by " ++ toString ((g.memoryUsedMb : Int) - (pg.memoryUsedMb : Int)) ++
            " MB with no managed processes on GPU. Possible leak.", none, now⟩, ?_, rfl⟩
        show _ ∈ overBudgetAlerts budget g now ++ thermalAlerts g now ++
          unmanagedAlerts procs now ++ leakAlerts (some prev) g procs now
        apply List.mem_append.mpr
        right
        rw [leakAlerts_pos prev pg g procs now hpg hd hm]
        exact List.mem_singleton.mpr rfl
    · intro a ha hty
      have ha2 : a ∈ overBudgetAlerts budget g now ++ thermalAlerts g now ++
          unmanagedAlerts procs now ++ leakAlerts prevSnap g procs now := ha
      rcases List.mem_append.mp ha2 with h123 | h4
      · rcases List.mem_append.mp h123 with h12 | h3
        · rcases List.mem_append.mp h12 with h1 | h2
          · rw [mem_overBudgetAlerts budget g now a h1] at hty
            exact absurd hty (by simp)
          · rw [mem_thermalAlerts g now a h2] at hty
            exact absurd hty (by simp)
        · rw [mem_unmanagedAlerts procs now a h3] at hty
          exact absurd hty (by simp)
      · exact (mem_leakAlerts prevSnap g procs now a h4).2.1

/-- Witness for C8: an 800 MB jump with no managed GPU process emits the
vram-leak alert; the same jump with one managed GPU process emits none. -/
theorem vram_leak_alert_iff_witness :
    (∃ a ∈ generateAlerts 14000 (some c8PrevSnap) (some c8CurGpu) [] 5,
      a.type = AlertType.vramLeak) ∧
    ¬ (∃ a ∈ generateAlerts 14000 (some c8PrevSnap) (some c8CurGpu) [c8ManagedProc] 5,
      a.type = AlertType.vramLeak) := by
  have h1 := (vram_leak_alert_iff 14000 (some c8PrevSnap) (some c8CurGpu)
    ([] : List GpuProcess) 5).1
  have h2 := (vram_leak_alert_iff 14000 (some c8PrevSnap) (some c8CurGpu)
    [c8ManagedProc] 5).1
  constructor
  · exact h1.mpr ⟨c8CurGpu, c8PrevSnap, c8PrevGpu, rfl, rfl, rfl, by decide, rfl⟩
  · intro hex
    rcases h2.mp hex with ⟨g, prev, pg, hg, hps, hpg, hd, hm⟩
    exact absurd hm (by decide)

/-- C9: `canLaunchModel` returns `allowed = false` exactly when the number
of GPU processes above the model-size floor meets or exceeds the configured
maximum, or the advisory lock is held; whenever it refuses it supplies a
nonempty reason string. -/
theorem can_launch_model_spec (config : FenceConfig) (locked : Bool) (snap : CudaSnapshot) :
    ((canLaunchModel config locked snap).allowed = false ↔
      (activeModelCount snap ≥ config.maxConcurrentModels ∨ locked = true)) ∧
    ((canLaunchModel config locked snap).allowed = false →
      ∃ s, (canLaunchModel config locked snap).reason = some s ∧ 0 < s.length) := by
  unfold canLaunchModel
  by_cases h1 : activeModelCount snap ≥ config.maxConcurrentModels
  · rw [if_pos h1]
    constructor
    · exact ⟨fun _ => Or.inl h1, fun _ => rfl⟩
    · intro _
      refine ⟨_, rfl, ?_⟩
      simp only [String.length_append]
      have h8 : "Already ".length = 8 := rfl
      omega
  · rw [if_neg h1]
    by_cases h2 : locked = true
    · rw [if_pos h2]
      constructor
      · exact ⟨fun _ => Or.inr h2, fun _ => rfl⟩
      · intro _
        exact ⟨_, rfl, by decide⟩
    · rw [if_neg h2]
      constructor
      · constructor
        · intro hfalse
          exact Bool.noConfusion hfalse
        · intro hor
          rcases hor with h | h
          · exact absurd h h1
          · exact absurd h h2
      · intro hfalse
        exact Bool.noConfusion hfalse

/-- Witness for C9: one GPU process above the floor and
`maxConcurrentModels = 1` yields a refusal with a nonempty reason. -/
theorem can_launch_model_spec_witness :
    (canLaunchModel DEFAULT_FENCE_CONFIG false c9Snap).allowed = false ∧
    ∃ s, (canLaunchModel DEFAULT_FENCE_CONFIG false c9Snap).reason = some s ∧ 0 < s.length := by
  have h := can_launch_model_spec DEFAULT_FENCE_CONFIG false c9Snap
  have hfalse : (canLaunchModel DEFAULT_FENCE_CONFIG false c9Snap).allowed = false :=
    h.1.mpr (Or.inl (by decide))
  exact ⟨hfalse, h.2 hfalse⟩

end Guardian
